import Mathlib

/-!
Verification of the `streaming_database` scripts (`init_db.py`, `test_db.py`).

The development shallowly embeds the SQLite-backed schema/seed/check logic:

* `Sha256` models `hashlib.sha256(...).hexdigest()` used by `_hash_password`;
* `StreamingDb` models the database state (the six tables, their column
  sets, and the SQLite `AUTOINCREMENT` counters), together with the seeding
  procedures of `init_db.py` (`_create_schema`, `_seed_app_info`,
  `_seed_demo_user`, `_seed_categories`, `_seed_videos`,
  `_seed_watch_history`, `initialize_database`);
* `ConnFile` models `_write_connection_files` and the parser
  `_get_db_path_from_connection_file` of `test_db.py`;
* `Checker` models `_assert_tables_exist`, `_assert_seed_data` and the
  bootstrapping logic of `main` in `test_db.py`.

Machine integers are modelled as `Nat` with explicit reduction mod `2 ^ 32`
where overflow matters (inside SHA-256).
-/

namespace Str

/-- Structural splitter on a single separator character (the behaviour of
Python's `str.split(sep)` and of `str.splitOn` for a one-character
separator, including empty pieces). -/
def splitOnCharAux : Char → List Char → List Char → List String
  | _, [], acc => [String.mk acc.reverse]
  | sep, c :: rest, acc =>
      if c == sep then String.mk acc.reverse :: splitOnCharAux sep rest []
      else splitOnCharAux sep rest (c :: acc)

def splitOnChar (sep : Char) (s : String) : List String := splitOnCharAux sep s.data []

def charsStartWith (pre s : List Char) : Bool :=
  match pre with
  | [] => true
  | p :: ps =>
    match s with
    | [] => false
    | c :: cs => c == p && charsStartWith ps cs

/-- Python's `s[n:]` on strings. -/
def strDrop (s : String) (n : Nat) : String := String.mk (s.data.drop n)

/-- Python's `str.startswith` / `String.startsWith`. -/
def strStartsWith (s pre : String) : Bool := charsStartWith pre.data s.data

/-- `String.toNat?`: all-digit non-empty strings. -/
def strToNat? (s : String) : Option Nat :=
  if s.data ≠ [] ∧ s.data.all Char.isDigit then
    some (s.data.foldl (fun n c => n * 10 + (c.toNat - 48)) 0)
  else none

end Str

namespace Sha256

/-- Reduce to a 32-bit word, as all SHA-256 arithmetic is mod `2 ^ 32`. -/
def w32 (n : Nat) : Nat := n % 4294967296

/-- Right rotation of a 32-bit word by `n` bits. -/
def rotr (n x : Nat) : Nat := w32 ((x >>> n) ||| (x <<< (32 - n)))

/-- Bitwise complement of a 32-bit word. -/
def compl32 (x : Nat) : Nat := 4294967295 ^^^ x

def smallSigma0 (x : Nat) : Nat := rotr 7 x ^^^ rotr 18 x ^^^ (x >>> 3)

def smallSigma1 (x : Nat) : Nat := rotr 17 x ^^^ rotr 19 x ^^^ (x >>> 10)

def bigSigma0 (x : Nat) : Nat := rotr 2 x ^^^ rotr 13 x ^^^ rotr 22 x

def bigSigma1 (x : Nat) : Nat := rotr 6 x ^^^ rotr 11 x ^^^ rotr 25 x

/-- The 64 SHA-256 round constants. -/
def K : List Nat :=
  [1116352408, 1899447441, 3049323471, 3921009573, 961987163,
   1508970993, 2453635748, 2870763221, 3624381080, 310598401,
   607225278, 1426881987, 1925078388, 2162078206, 2614888103,
   3248222580, 3835390401, 4022224774, 264347078, 604807628,
   770255983, 1249150122, 1555081692, 1996064986, 2554220882,
   2821834349, 2952996808, 3210313671, 3336571891, 3584528711,
   113926993, 338241895, 666307205, 773529912, 1294757372,
   1396182291, 1695183700, 1986661051, 2177026350, 2456956037,
   2730485921, 2820302411, 3259730800, 3345764771, 3516065817,
   3600352804, 4094571909, 275423344, 430227734, 506948616,
   659060556, 883997877, 958139571, 1322822218, 1537002063,
   1747873779, 1955562222, 2024104815, 2227730452, 2361852424,
   2428436474, 2756734187, 3204031479, 3329325298]

/-- Working state of the compression function. -/
structure Regs where
  a : Nat
  b : Nat
  c : Nat
  d : Nat
  e : Nat
  f : Nat
  g : Nat
  h : Nat
deriving Repr, DecidableEq

/-- Initial hash value. -/
def H0 : Regs :=
  ⟨1779033703, 3144134277, 1013904242, 2773480762,
   1359893119, 2600822924, 528734635, 1541459225⟩

/-- One compression round for schedule word `w` and round constant `k`. -/
def round (r : Regs) (wk : Nat × Nat) : Regs :=
  let t1 := w32 (r.h + bigSigma1 r.e + ((r.e &&& r.f) ^^^ (compl32 r.e &&& r.g))
                 + wk.2 + wk.1)
  let t2 := w32 (bigSigma0 r.a + ((r.a &&& r.b) ^^^ (r.a &&& r.c) ^^^ (r.b &&& r.c)))
  ⟨w32 (t1 + t2), r.a, r.b, r.c, w32 (r.d + t1), r.e, r.f, r.g⟩

/-- Extend the 16 block words to the 64-word message schedule. -/
def extendWords : Nat → List Nat → List Nat
  | 0, ws => ws
  | n + 1, ws =>
      let len := ws.length
      let nw := w32 (ws.getD (len - 16) 0 + smallSigma0 (ws.getD (len - 15) 0)
                     + ws.getD (len - 7) 0 + smallSigma1 (ws.getD (len - 2) 0))
      extendWords n (ws ++ [nw])

/-- Big-endian 32-bit words from a list of bytes. -/
def toWords : List Nat → List Nat
  | b0 :: b1 :: b2 :: b3 :: rest =>
      (((b0 * 256 + b1) * 256 + b2) * 256 + b3) :: toWords rest
  | _ => []

/-- Process one 64-byte block. -/
def processBlock (h : Regs) (block : List Nat) : Regs :=
  let ws := extendWords 48 (toWords block)
  let r := (ws.zip K).foldl round h
  ⟨w32 (h.a + r.a), w32 (h.b + r.b), w32 (h.c + r.c), w32 (h.d + r.d),
   w32 (h.e + r.e), w32 (h.f + r.f), w32 (h.g + r.g), w32 (h.h + r.h)⟩

/-- Big-endian 8-byte encoding of a length in bits. -/
def be64 (n : Nat) : List Nat :=
  [(n >>> 56) % 256, (n >>> 48) % 256, (n >>> 40) % 256, (n >>> 32) % 256,
   (n >>> 24) % 256, (n >>> 16) % 256, (n >>> 8) % 256, n % 256]

/-- SHA-256 padding: append `0x80`, zeros, and the 64-bit bit length. -/
def padMessage (bytes : List Nat) : List Nat :=
  let len := bytes.length
  let zeros := (119 - len % 64) % 64
  bytes ++ [0x80] ++ List.replicate zeros 0 ++ be64 (len * 8)

/-- Split a padded message into its 64-byte blocks. -/
def chunksN : Nat → List Nat → List (List Nat)
  | 0, _ => []
  | n + 1, l => l.take 64 :: chunksN n (l.drop 64)

/-- UTF-8 encoding of a single character, as in Python's `str.encode`. -/
def utf8Bytes (c : Char) : List Nat :=
  let n := c.toNat
  if n < 0x80 then [n]
  else if n < 0x800 then
    [0xc0 ||| (n >>> 6), 0x80 ||| (n &&& 0x3f)]
  else if n < 0x10000 then
    [0xe0 ||| (n >>> 12), 0x80 ||| ((n >>> 6) &&& 0x3f), 0x80 ||| (n &&& 0x3f)]
  else
    [0xf0 ||| (n >>> 18), 0x80 ||| ((n >>> 12) &&& 0x3f),
     0x80 ||| ((n >>> 6) &&& 0x3f), 0x80 ||| (n &&& 0x3f)]

/-- UTF-8 bytes of a string. -/
def strBytes (s : String) : List Nat :=
  s.data.foldr (fun c acc => utf8Bytes c ++ acc) []

/-- Lower-case hex digit. -/
def hexChar (n : Nat) : Char :=
  if n < 10 then Char.ofNat (48 + n) else Char.ofNat (87 + n)

/-- Eight lower-case hex digits of a 32-bit word. -/
def wordHex (w : Nat) : List Char :=
  [hexChar ((w >>> 28) % 16), hexChar ((w >>> 24) % 16), hexChar ((w >>> 20) % 16),
   hexChar ((w >>> 16) % 16), hexChar ((w >>> 12) % 16), hexChar ((w >>> 8) % 16),
   hexChar ((w >>> 4) % 16), hexChar (w % 16)]

/-- `hashlib.sha256(s.encode("utf-8")).hexdigest()`. -/
def hexdigest (s : String) : String :=
  let bytes := padMessage (strBytes s)
  let final := (chunksN (bytes.length / 64) bytes).foldl processBlock H0
  ⟨wordHex final.a ++ wordHex final.b ++ wordHex final.c ++ wordHex final.d ++
   wordHex final.e ++ wordHex final.f ++ wordHex final.g ++ wordHex final.h⟩

end Sha256

namespace StreamingDb

/-- A row of the `app_info` table. -/
structure AppInfoRow where
  id : Nat
  key : String
  value : String
  created_at : Nat
deriving Repr, DecidableEq

/-- A row of the `users` table. -/
structure UserRow where
  id : Nat
  username : String
  email : String
  password_hash : Option String
  full_name : String
  is_active : Nat
  created_at : Nat
deriving Repr, DecidableEq

/-- A row of the `categories` table. -/
structure CategoryRow where
  id : Nat
  name : String
  description : String
  created_at : Nat
deriving Repr, DecidableEq

/-- A row of the `videos` table. -/
structure VideoRow where
  id : Nat
  title : String
  description : String
  slug : String
  video_url : String
  thumbnail_url : String
  duration_seconds : Nat
  is_published : Nat
  created_at : Nat
deriving Repr, DecidableEq

/-- A row of the `video_categories` join table. -/
structure VideoCategoryRow where
  video_id : Nat
  category_id : Nat
deriving Repr, DecidableEq

/-- A row of the `watch_history` table. -/
structure WatchHistoryRow where
  id : Nat
  user_id : Nat
  video_id : Nat
  progress_seconds : Nat
  completed : Nat
  last_watched_at : Nat
deriving Repr, DecidableEq

/-- The SQLite database state: the catalog of tables with their column
lists, the created indexes, the rows of the six tables, and the
`AUTOINCREMENT` counters (SQLite hands out `max`-so-far + 1; the counters
model the `sqlite_sequence` bookkeeping). -/
structure Db where
  table_columns : List (String × List String)
  indexes : List String
  app_info : List AppInfoRow
  users : List UserRow
  categories : List CategoryRow
  videos : List VideoRow
  video_categories : List VideoCategoryRow
  watch_history : List WatchHistoryRow
  next_app_info_id : Nat
  next_user_id : Nat
  next_category_id : Nat
  next_video_id : Nat
  next_watch_history_id : Nat
deriving Repr, DecidableEq

/-- A freshly created (or still nonexistent) database file. -/
def emptyDb : Db := ⟨[], [], [], [], [], [], [], [], 1, 1, 1, 1, 1⟩

/-- `CREATE TABLE IF NOT EXISTS` on the catalog of table column lists. -/
def createTableIfNotExists (name : String) (cols : List String)
    (tc : List (String × List String)) : List (String × List String) :=
  if tc.any (fun e => e.1 == name) then tc else tc ++ [(name, cols)]

/-- `CREATE INDEX IF NOT EXISTS` on the list of index names. -/
def createIndexIfNotExists (name : String) (idx : List String) : List String :=
  if name ∈ idx then idx else idx ++ [name]

/-- Schema-level effect of `_ensure_column`: the column name (the first
whitespace-separated token of `column_def`, as in `column_def.split()[0]`)
is added to the table's column list when absent.  Every call site in
`_create_schema` runs after the table has been created. -/
def ensureColumnOnTc (table : String) (column_def : String)
    (tc : List (String × List String)) : List (String × List String) :=
  let column_name := ((Str.splitOnChar ' ' column_def).filter (fun w => w != "")).headD ""
  tc.map (fun e =>
    if e.1 == table then
      (e.1, if column_name ∈ e.2 then e.2 else e.2 ++ [column_name])
    else e)

/-- The table-catalog effect of `_create_schema`: the six `CREATE TABLE IF
NOT EXISTS` statements and the three `users` migrations, in source order. -/
def schemaTables (tc : List (String × List String)) : List (String × List String) :=
  let tc := createTableIfNotExists "app_info" ["id", "key", "value", "created_at"] tc
  let tc := createTableIfNotExists "users"
    ["id", "username", "email", "password_hash", "full_name", "is_active", "created_at"] tc
  let tc := ensureColumnOnTc "users" "password_hash TEXT" tc
  let tc := ensureColumnOnTc "users" "full_name TEXT" tc
  let tc := ensureColumnOnTc "users" "is_active INTEGER NOT NULL DEFAULT 1" tc
  let tc := createTableIfNotExists "categories" ["id", "name", "description", "created_at"] tc
  let tc := createTableIfNotExists "videos"
    ["id", "title", "description", "slug", "video_url", "thumbnail_url",
     "duration_seconds", "is_published", "created_at"] tc
  let tc := createTableIfNotExists "video_categories" ["video_id", "category_id"] tc
  createTableIfNotExists "watch_history"
    ["id", "user_id", "video_id", "progress_seconds", "completed", "last_watched_at"] tc

/-- The index effect of `_create_schema`: the three `CREATE INDEX IF NOT
EXISTS` statements, in source order. -/
def schemaIndexes (idx : List String) : List String :=
  let idx := createIndexIfNotExists "idx_videos_slug" idx
  let idx := createIndexIfNotExists "idx_watch_history_user_id" idx
  createIndexIfNotExists "idx_watch_history_video_id" idx

/-- `_create_schema`: create the six tables and three indexes if absent and
apply the three additive `users` migrations.  Only the schema catalog of
the database is read or written. -/
def _create_schema (s : Db) : Db :=
  { s with table_columns := schemaTables s.table_columns,
           indexes := schemaIndexes s.indexes }

/-- `_hash_password`: SHA-256 hex digest of the UTF-8 encoded password. -/
def _hash_password (password : String) : String := Sha256.hexdigest password

/-- The fixed `app_info` seed entries. -/
def appInfoEntries : List (String × String) :=
  [("project_name", "streaming_database"),
   ("version", "0.2.0"),
   ("author", "Demo Seed"),
   ("description", "SQLite database for the Streamline Video Platform (streaming metadata, users, history)."),
   ("schema", "users, categories, videos, video_categories, watch_history, app_info")]

/-- `INSERT OR REPLACE INTO app_info (key, value) VALUES (?, ?)`: delete the
rows conflicting on the `UNIQUE` key, then insert a fresh row whose `id`
comes from the `AUTOINCREMENT` counter and whose `created_at` takes the
`CURRENT_TIMESTAMP` default `t`. -/
def insertOrReplaceAppInfo (k v : String) (t : Nat) (s : Db) : Db :=
  { s with
    app_info := s.app_info.filter (fun r => r.key != k) ++ [⟨s.next_app_info_id, k, v, t⟩],
    next_app_info_id := s.next_app_info_id + 1 }

/-- `_seed_app_info`. -/
def _seed_app_info (t : Nat) (s : Db) : Db :=
  appInfoEntries.foldl (fun s kv => insertOrReplaceAppInfo kv.1 kv.2 t s) s

def demoUsername : String := "demo_user"
def demoEmail : String := "demo@example.com"
def demoFullName : String := "Demo User"
def demoPasswordHash : String := _hash_password "password123"

/-- The `UPDATE users SET email = ... WHERE username = 'demo_user'` fails
with an `IntegrityError` when it would leave two rows with the demo email:
either another row already holds it, or two rows share the demo username. -/
def demoUpdateConflict (users : List UserRow) : Prop :=
  (∃ u ∈ users, u.username = demoUsername) ∧
  ((∃ u ∈ users, u.username ≠ demoUsername ∧ u.email = demoEmail) ∨
   2 ≤ (users.filter (fun u => u.username == demoUsername)).length)

instance : DecidablePred demoUpdateConflict := fun _ => by
  unfold demoUpdateConflict; infer_instance

/-- Effect of the `UPDATE users SET ... WHERE username = 'demo_user'` on a
single row. -/
def demoUpdate (u : UserRow) : UserRow :=
  if u.username == demoUsername then
    { u with email := demoEmail, password_hash := some demoPasswordHash,
             full_name := demoFullName, is_active := 1 }
  else u

/-- `_seed_demo_user`: `INSERT OR IGNORE` (ignored when the `UNIQUE`
username or `UNIQUE` email constraint would fire), then the unconditional
`UPDATE`, then `SELECT id`; `none` models the raised error. -/
def _seed_demo_user (t : Nat) (s : Db) : Option (Nat × Db) :=
  let s1 :=
    if s.users.any (fun u => u.username == demoUsername || u.email == demoEmail) then s
    else { s with
           users := s.users ++
             [⟨s.next_user_id, demoUsername, demoEmail, some demoPasswordHash, demoFullName, 1, t⟩],
           next_user_id := s.next_user_id + 1 }
  if demoUpdateConflict s1.users then none
  else
    let s2 := { s1 with users := s1.users.map demoUpdate }
    match s2.users.find? (fun u => u.username == demoUsername) with
    | none => none
    | some u => some (u.id, s2)

/-- The fixed category seed list. -/
def categoriesSeed : List (String × String) :=
  [("Action", "High-energy movies and series filled with stunts and chases."),
   ("Drama", "Character-driven stories with emotional stakes."),
   ("Comedy", "Light-hearted content to make you laugh."),
   ("Sci-Fi", "Speculative science fiction and futuristic adventures."),
   ("Documentary", "Non-fictional, informative films and series."),
   ("Family", "Family-friendly movies and shows.")]

/-- `INSERT OR IGNORE INTO categories (name, description)`. -/
def insertOrIgnoreCategory (name description : String) (t : Nat) (s : Db) : Db :=
  if s.categories.any (fun c => c.name == name) then s
  else { s with
         categories := s.categories ++ [⟨s.next_category_id, name, description, t⟩],
         next_category_id := s.next_category_id + 1 }

/-- A Python `dict` built from a list of pairs, then `.get`: the last
binding of a key wins. -/
def dictGet (m : List (String × Nat)) (k : String) : Option Nat :=
  m.reverse.lookup k

/-- `_seed_categories`: insert-or-ignore the fixed list, then read the full
table back into a name → id mapping. -/
def _seed_categories (t : Nat) (s : Db) : List (String × Nat) × Db :=
  let s' := categoriesSeed.foldl (fun s nd => insertOrIgnoreCategory nd.1 nd.2 t s) s
  (s'.categories.map (fun c => (c.name, c.id)), s')

/-- One entry of the fixed video seed list. -/
structure VideoSeed where
  slug : String
  title : String
  description : String
  video_url : String
  thumbnail_url : String
  duration_seconds : Nat
  categories : List String
deriving Repr, DecidableEq

/-- The fixed video seed list of `_seed_videos`. -/
def videosSeed : List VideoSeed :=
  [⟨"galaxy-odyssey", "Galaxy Odyssey",
    "A crew of explorers travels through distant galaxies on a risky mission.",
    "/videos/galaxy-odyssey.mp4", "/thumbnails/galaxy-odyssey.jpg", 5400,
    ["Sci-Fi", "Action"]⟩,
   ⟨"urban-comedy-night", "Urban Comedy Night",
    "Stand-up comedians take the stage for a night of laughs.",
    "/videos/urban-comedy-night.mp4", "/thumbnails/urban-comedy-night.jpg", 3600,
    ["Comedy"]⟩,
   ⟨"deep-sea-mysteries", "Deep Sea Mysteries",
    "A documentary exploring the most remote parts of the ocean.",
    "/videos/deep-sea-mysteries.mp4", "/thumbnails/deep-sea-mysteries.jpg", 4200,
    ["Documentary"]⟩,
   ⟨"city-of-shadows", "City of Shadows",
    "A gritty crime drama set in a neon-lit metropolis.",
    "/videos/city-of-shadows.mp4", "/thumbnails/city-of-shadows.jpg", 4800,
    ["Drama", "Action"]⟩,
   ⟨"cosmic-frontier", "Cosmic Frontier",
    "A serialized sci-fi show following a frontier space station.",
    "/videos/cosmic-frontier.mp4", "/thumbnails/cosmic-frontier.jpg", 2700,
    ["Sci-Fi"]⟩,
   ⟨"family-road-trip", "Family Road Trip",
    "A heartwarming story of a family rediscovering each other on the road.",
    "/videos/family-road-trip.mp4", "/thumbnails/family-road-trip.jpg", 5400,
    ["Family", "Comedy"]⟩,
   ⟨"kitchen-stories", "Kitchen Stories",
    "A cozy cooking show sharing recipes and stories.",
    "/videos/kitchen-stories.mp4", "/thumbnails/kitchen-stories.jpg", 1500,
    ["Documentary", "Family"]⟩,
   ⟨"edge-of-reality", "Edge of Reality",
    "A mind-bending sci-fi thriller about simulated worlds.",
    "/videos/edge-of-reality.mp4", "/thumbnails/edge-of-reality.jpg", 6000,
    ["Sci-Fi", "Drama"]⟩,
   ⟨"laugh-out-loud", "Laugh Out Loud",
    "A curated collection of hilarious sketches.",
    "/videos/laugh-out-loud.mp4", "/thumbnails/laugh-out-loud.jpg", 1800,
    ["Comedy"]⟩,
   ⟨"planet-earthways", "Planet Earthways",
    "Stunning visuals showcase nature across the globe.",
    "/videos/planet-earthways.mp4", "/thumbnails/planet-earthways.jpg", 3600,
    ["Documentary", "Family"]⟩]

/-- `INSERT OR IGNORE INTO videos ...` keyed on the `UNIQUE` slug. -/
def insertOrIgnoreVideo (v : VideoSeed) (t : Nat) (s : Db) : Db :=
  if s.videos.any (fun r => r.slug == v.slug) then s
  else { s with
         videos := s.videos ++
           [⟨s.next_video_id, v.title, v.description, v.slug, v.video_url,
             v.thumbnail_url, v.duration_seconds, 1, t⟩],
         next_video_id := s.next_video_id + 1 }

/-- `INSERT OR IGNORE INTO video_categories (video_id, category_id)`. -/
def insertOrIgnoreVideoCategory (video_id category_id : Nat) (s : Db) : Db :=
  if s.video_categories.any (fun r => r.video_id == video_id && r.category_id == category_id)
  then s
  else { s with video_categories := s.video_categories ++ [⟨video_id, category_id⟩] }

/-- Body of the `for video in videos` loop of `_seed_videos`: insert the
video if its slug is absent, `SELECT` its id (raising when not found), and
insert the join rows for the categories present in `category_ids`. -/
def seedOneVideo (t : Nat) (category_ids : List (String × Nat)) (s : Db) (v : VideoSeed) :
    Option Db :=
  let s1 := insertOrIgnoreVideo v t s
  match s1.videos.find? (fun r => r.slug == v.slug) with
  | none => none
  | some row =>
      some (v.categories.foldl (fun s cat_name =>
        match dictGet category_ids cat_name with
        | none => s
        | some cat_id => insertOrIgnoreVideoCategory row.id cat_id s) s1)

/-- `_seed_videos`: seed all videos and join rows, then read the table back
into a slug → id mapping. -/
def _seed_videos (t : Nat) (category_ids : List (String × Nat)) (s : Db) :
    Option (List (String × Nat) × Db) :=
  (videosSeed.foldlM (seedOneVideo t category_ids) s).map
    (fun s' => (s'.videos.map (fun r => (r.slug, r.id)), s'))

/-- The fixed `(slug, progress_seconds, completed)` samples. -/
def watchSamples : List (String × Nat × Nat) :=
  [("galaxy-odyssey", 1200, 0),
   ("deep-sea-mysteries", 2100, 0),
   ("urban-comedy-night", 3500, 1),
   ("family-road-trip", 1800, 0),
   ("edge-of-reality", 900, 0)]

/-- `INSERT OR REPLACE INTO watch_history ...`: delete the rows conflicting
on `UNIQUE(user_id, video_id)`, then insert the fresh row with
`last_watched_at = CURRENT_TIMESTAMP`. -/
def insertOrReplaceWatchHistory (user_id video_id progress completed t : Nat) (s : Db) : Db :=
  { s with
    watch_history :=
      s.watch_history.filter (fun r => !(r.user_id == user_id && r.video_id == video_id)) ++
        [⟨s.next_watch_history_id, user_id, video_id, progress, completed, t⟩],
    next_watch_history_id := s.next_watch_history_id + 1 }

/-- Body of the `for slug, progress_seconds, completed in samples` loop:
resolve the slug (skipping unknown slugs) and insert-or-replace the row
for `(demo_user_id, video_id)`. -/
def watchStep (t demo_user_id : Nat) (video_ids : List (String × Nat)) (s : Db)
    (smp : String × Nat × Nat) : Db :=
  match dictGet video_ids smp.1 with
  | none => s
  | some video_id =>
      insertOrReplaceWatchHistory demo_user_id video_id smp.2.1 smp.2.2 t s

/-- `_seed_watch_history`. -/
def _seed_watch_history (t : Nat) (demo_user_id : Nat) (video_ids : List (String × Nat))
    (s : Db) : Db :=
  watchSamples.foldl (watchStep t demo_user_id video_ids) s

end StreamingDb

namespace StreamingDb

/-- The in-memory state threaded through one `initialize_database` run:
the (uncommitted) connection view of the database plus the local variables
`demo_user_id`, `category_ids` and `video_ids`. -/
structure RunState where
  db : Db
  demo_user_id : Option Nat
  category_ids : Option (List (String × Nat))
  video_ids : Option (List (String × Nat))
deriving Repr, DecidableEq

def initRunState (s : Db) : RunState := ⟨s, none, none, none⟩

def stepSchema (rs : RunState) : Option RunState :=
  some { rs with db := _create_schema rs.db }

def stepAppInfo (t : Nat) (rs : RunState) : Option RunState :=
  some { rs with db := _seed_app_info t rs.db }

def stepUser (t : Nat) (rs : RunState) : Option RunState :=
  (_seed_demo_user t rs.db).map (fun p => { rs with db := p.2, demo_user_id := some p.1 })

def stepCategories (t : Nat) (rs : RunState) : Option RunState :=
  let p := _seed_categories t rs.db
  some { rs with db := p.2, category_ids := some p.1 }

def stepVideos (t : Nat) (rs : RunState) : Option RunState :=
  match rs.category_ids with
  | none => none
  | some m => (_seed_videos t m rs.db).map
      (fun p => { rs with db := p.2, video_ids := some p.1 })

def stepWatchHistory (t : Nat) (rs : RunState) : Option RunState :=
  match rs.demo_user_id, rs.video_ids with
  | some uid, some vm => some { rs with db := _seed_watch_history t uid vm rs.db }
  | _, _ => none

/-- The six statements of `initialize_database` between `sqlite3.connect`
and `conn.commit()`, in source order. -/
def initSteps (t : Nat) : List (RunState → Option RunState) :=
  [stepSchema, stepAppInfo t, stepUser t, stepCategories t, stepVideos t, stepWatchHistory t]

/-- Run a list of fallible steps in order, stopping at the first failure. -/
def runSteps (steps : List (α → Option α)) (a : α) : Option α :=
  steps.foldl (fun acc f => acc.bind f) (some a)

/-- `initialize_database` run at time `t`: the value is the connection
state at `conn.commit()`, or `none` when one of the steps raised. -/
def initialize_database (t : Nat) (s : Db) : Option Db :=
  (runSteps (initSteps t) (initRunState s)).map (fun rs => rs.db)

/-- What the database file holds after the run.  Under `sqlite3.connect`'s
legacy transaction control an implicit `BEGIN` is issued only before DML
statements, so the `CREATE TABLE` / `CREATE INDEX` / `ALTER TABLE`
statements of `_create_schema` — which run first, with no transaction
open — auto-commit the moment each completes.  Only the seeding DML joins
the single transaction committed after all six steps; when a later step
raises, `conn.close()` in the `finally` block rolls that transaction back,
leaving the schema changes in place but no seeded row. -/
def commitRun (t : Nat) (disk : Db) : Db :=
  match initialize_database t disk with
  | some s => s
  | none => _create_schema disk

/-- The row counts of the six tables. -/
def rowCounts (s : Db) : Nat × Nat × Nat × Nat × Nat × Nat :=
  (s.app_info.length, s.users.length, s.categories.length,
   s.videos.length, s.video_categories.length, s.watch_history.length)

/-- Invariants SQLite itself maintains for the `videos` table through its
`INTEGER PRIMARY KEY AUTOINCREMENT` column and the `UNIQUE` slug: ids are
pairwise distinct and below the `sqlite_sequence` counter, and slugs are
pairwise distinct. -/
def DbInv (s : Db) : Prop :=
  (s.videos.map (fun v => v.id)).Nodup
  ∧ (s.videos.map (fun v => v.slug)).Nodup
  ∧ ∀ v ∈ s.videos, v.id < s.next_video_id

instance : DecidablePred DbInv := fun _ => by unfold DbInv; infer_instance

end StreamingDb

namespace ConnFile

/-- Python whitespace as recognized by `str.strip()`. -/
def isPyWhitespace (c : Char) : Bool :=
  c == ' ' || c == '\t' || c == '\n' || c == '\r' || c == '\x0b' || c == '\x0c'

/-- Python `str.strip()`. -/
def pyStrip (s : String) : String :=
  ⟨((s.data.dropWhile isPyWhitespace).reverse.dropWhile isPyWhitespace).reverse⟩

/-- Python `s.split(":", 1)[1]`: everything after the first colon. -/
def afterFirstColon (s : String) : String :=
  ⟨(s.data.dropWhile (fun c => c != ':')).drop 1⟩

/-- `os.path.normpath` on a path that starts with `/` (for absolute
inputs `os.path.abspath` coincides with it): collapse empty and `.`
components, resolve `..` lexically, and keep a leading `//` exactly when
the path starts with two (not three) slashes. -/
def normpathAbs (p : String) : String :=
  let slashes := if Str.strStartsWith p "//" && !(Str.strStartsWith p "///") then 2 else 1
  let newComps := (Str.splitOnChar '/' p).foldl (fun (acc : List String) comp =>
      if comp = "" || comp = "." then acc
      else if comp = ".." then acc.dropLast
      else acc ++ [comp]) []
  String.mk (List.replicate slashes '/') ++ String.intercalate "/" newComps

/-- `os.path.abspath` as used on the already-absolute stored path. -/
def abspathModel (p : String) : String :=
  if Str.strStartsWith p "/" then normpathAbs p else p

/-- The content `_write_connection_files` writes to `db_connection.txt`
for database path `db_path`. -/
def writeConnectionContent (db_path : String) : String :=
  "# SQLite connection methods:\n" ++
  "# Python: sqlite3.connect('" ++ db_path ++ "')\n" ++
  "# Connection string: sqlite:///" ++ db_path ++ "\n" ++
  "# File path: " ++ db_path ++ "\n"

/-- Python's universal-newline translation on reading a text file:
`\r\n` and bare `\r` both become `\n`. -/
def normalizeNewlines : List Char → List Char
  | [] => []
  | ['\r'] => ['\n']
  | '\r' :: '\n' :: rest => '\n' :: normalizeNewlines rest
  | '\r' :: c :: rest => '\n' :: normalizeNewlines (c :: rest)
  | c :: rest => c :: normalizeNewlines rest

/-- Split file content into lines the way Python's text-mode iteration
does (universal newlines: `\n`, `\r` and `\r\n` all end a line). -/
def splitLines (content : String) : List String :=
  Str.splitOnChar '\n' (String.mk (normalizeNewlines content.data))

/-- Python truthiness of the optional strings in the parser
(`None` and `""` are both falsy). -/
def pyFalsy : Option String → Bool
  | none => true
  | some s => s == ""

/-- One iteration of the `for line in f` loop of
`_get_db_path_from_connection_file`: remember the last `# File path:` and
`# Connection string:` payloads seen. -/
def parseStep (acc : Option String × Option String) (line : String) :
    Option String × Option String :=
  let stripped := pyStrip line
  if Str.strStartsWith stripped "# File path:" then
    (some (pyStrip (afterFirstColon stripped)), acc.2)
  else if Str.strStartsWith stripped "# Connection string:" then
    (acc.1, some (pyStrip (afterFirstColon stripped)))
  else acc

/-- The parsing core of `_get_db_path_from_connection_file`: scan the
lines remembering the last `# File path:` and `# Connection string:`
payloads, fall back to the `sqlite:///` URL when the file path is falsy,
and return the absolutized path (`none` models the raised error). -/
def parseConnectionContent (content : String) : Option String :=
  let st := (splitLines content).foldl parseStep (none, none)
  let db_path :=
    if pyFalsy st.1 && !(pyFalsy st.2) && Str.strStartsWith (st.2.getD "") "sqlite:///" then
      some (Str.strDrop (st.2.getD "") 10)
    else st.1
  if pyFalsy db_path then none
  else some (abspathModel (db_path.getD ""))

end ConnFile

namespace Checker

open StreamingDb

/-- The tables `main` requires, in source order. -/
def requiredTables : List String :=
  ["users", "categories", "videos", "video_categories", "watch_history", "app_info"]

/-- `_assert_tables_exist`: compare the catalog of non-system tables with
the required list and report every missing name. -/
def assert_tables_exist (s : Db) (required_tables : List String) : Except String Unit :=
  let existing := s.table_columns.map (fun tc => tc.1)
  let missing := required_tables.filter (fun t => !(existing.contains t))
  if missing.isEmpty then Except.ok ()
  else Except.error ("Missing required tables: " ++ String.intercalate ", " missing)

/-- The `COUNT(*)` of users with username `demo_user` and a non-`NULL`,
non-empty password hash. -/
def demoUserHashCount (s : Db) : Nat :=
  (s.users.filter (fun u => u.username == demoUsername &&
     match u.password_hash with
     | none => false
     | some h => decide (0 < h.length))).length

/-- `_assert_seed_data`: the five seed checks, each raising immediately on
failure. -/
def assert_seed_data (s : Db) : Except String Unit := do
  if s.users.length < 1 then
    throw "Expected at least one user in the users table."
  if demoUserHashCount s < 1 then
    throw "Expected a seeded demo user with a hashed password (username 'demo_user')."
  if s.categories.length < 3 then
    throw ("Expected several categories, found " ++ toString s.categories.length ++ ".")
  if s.videos.length < 8 then
    throw ("Expected at least 8 seeded videos, found " ++ toString s.videos.length ++ ".")
  match s.users.find? (fun u => u.username == demoUsername) with
  | none => throw "demo_user not found when checking watch_history."
  | some demo_row =>
    if (s.watch_history.filter (fun r => r.user_id == demo_row.id)).length < 1 then
      throw "Expected at least one watch_history row for demo_user."
    else
      pure ()

/-- The schema/seed validation part of `main` on an opened database:
exit code 0 when both assertions pass, 1 when either raises. -/
def checkDatabase (s : Db) : Nat :=
  match assert_tables_exist s requiredTables with
  | Except.error _ => 1
  | Except.ok () =>
    match assert_seed_data s with
    | Except.error _ => 1
    | Except.ok () => 0

end Checker

namespace Checker

/-- The filesystem state `test_db.py` interacts with: the content of
`db_connection.txt` when the file exists, and the set of paths at which a
database file exists. -/
structure World where
  conn_file : Option String
  db_files : List String
deriving Repr, DecidableEq

instance {ε α : Type} [DecidableEq ε] [DecidableEq α] : DecidableEq (Except ε α) :=
  fun a b =>
    match a, b with
    | Except.error e, Except.error e' => decidable_of_iff (e = e') (by simp)
    | Except.ok x, Except.ok y => decidable_of_iff (x = y) (by simp)
    | Except.error _, Except.ok _ => isFalse (by simp)
    | Except.ok _, Except.error _ => isFalse (by simp)

/-- Outcome of the bootstrapping part of `main`: the final filesystem
state, how many times `_run_init_db` ran, how many of those runs the
missing-connection-file condition triggered, how many the
missing-database-file condition triggered, and the resolved path or the
failure that makes `main` return 1. -/
structure BootResult where
  world : World
  init_calls : Nat
  conn_triggered : Nat
  db_triggered : Nat
  outcome : Except String String
deriving Repr, DecidableEq

/-- `_get_db_path_from_connection_file` over a world, with `init` the
effect of `_run_init_db` (`none` models a non-zero exit of `init_db.py`):
run `init` when the connection file is missing, fail if it is still
missing, else parse it.  Also returns how many times `init` ran. -/
def getDbPathStep (init : World → Option World) (w : World) :
    World × Nat × Except String String :=
  match w.conn_file with
  | some content =>
      (w, 0,
        match ConnFile.parseConnectionContent content with
        | some p => Except.ok p
        | none => Except.error "Unable to determine database path from db_connection.txt.")
  | none =>
      match init w with
      | none => (w, 1, Except.error "init_db.py failed")
      | some w' =>
          match w'.conn_file with
          | none => (w', 1, Except.error "db_connection.txt is still missing after initialization.")
          | some content =>
              (w', 1,
                match ConnFile.parseConnectionContent content with
                | some p => Except.ok p
                | none => Except.error "Unable to determine database path from db_connection.txt.")

/-- The bootstrapping logic of `main`: resolve the path (remediating a
missing connection file once inside `_get_db_path_from_connection_file`),
and if the database file is missing run `init` once and re-resolve,
giving up with a failure when it is still missing. -/
def mainBootstrap (init : World → Option World) (w0 : World) : BootResult :=
  match getDbPathStep init w0 with
  | (w1, c1, Except.error e) => ⟨w1, c1, c1, 0, Except.error e⟩
  | (w1, c1, Except.ok p) =>
    if p ∈ w1.db_files then ⟨w1, c1, c1, 0, Except.ok p⟩
    else
      match init w1 with
      | none => ⟨w1, c1 + 1, c1, 1, Except.error "init_db.py failed"⟩
      | some w2 =>
        match getDbPathStep init w2 with
        | (w3, c2, Except.error e) => ⟨w3, c1 + 1 + c2, c1 + c2, 1, Except.error e⟩
        | (w3, c2, Except.ok p2) =>
          if p2 ∈ w3.db_files then ⟨w3, c1 + 1 + c2, c1 + c2, 1, Except.ok p2⟩
          else ⟨w3, c1 + 1 + c2, c1 + c2, 1,
                Except.error ("Database file '" ++ p2 ++ "' is still missing after initialization.")⟩

end Checker

namespace SqlTable

/-- A stored SQLite value, for the generic table model `_ensure_column`
operates on. -/
inductive SqlValue where
  | null
  | intVal (i : Nat)
  | textVal (s : String)
deriving Repr, DecidableEq

/-- `column_def.split()[0]`: the column name is the first
whitespace-separated token of the definition. -/
def parseColumnName (column_def : String) : String :=
  ((Str.splitOnChar ' ' column_def).filter (fun w => w != "")).headD ""

/-- The declared default of a column definition: the token after
`DEFAULT`, read as an integer when possible; without a `DEFAULT` clause
`ALTER TABLE ADD COLUMN` fills existing rows with `NULL`. -/
def parseColumnDefault (column_def : String) : SqlValue :=
  match ((Str.splitOnChar ' ' column_def).filter (fun w => w != "")).dropWhile
      (fun w => w != "DEFAULT") with
  | _ :: v :: _ =>
      match Str.strToNat? v with
      | some n => SqlValue.intVal n
      | none => SqlValue.textVal v
  | _ => SqlValue.null

/-- A generic table: the live column list (`PRAGMA table_info`) and the
rows as column-name/value pairs. -/
structure Table where
  cols : List String
  rows : List (List (String × SqlValue))
deriving Repr, DecidableEq

/-- `_ensure_column`: inspect the live column list; when the parsed column
name is absent, `ALTER TABLE ADD COLUMN`, which appends the column and
fills every existing row with the declared default. -/
def _ensure_column (tbl : Table) (column_def : String) : Table :=
  let column_name := parseColumnName column_def
  if column_name ∈ tbl.cols then tbl
  else
    { cols := tbl.cols ++ [column_name],
      rows := tbl.rows.map (fun r => r ++ [(column_name, parseColumnDefault column_def)]) }

end SqlTable

open StreamingDb SqlTable ConnFile Checker Str

set_option maxRecDepth 40000

/-- C2: starting from an empty or non-existent database file, one run of
the schema+seed procedure (`initialize_database`) produces exactly 6
tables, exactly 1 user — `demo_user`, with a non-empty password hash —
exactly 6 category rows, exactly 10 video rows, and exactly 5
watch-history rows all belonging to the demo user; the Integrity Checker
run afterwards returns success (exit code 0). -/
theorem c2_cold_start :
    ∃ s : Db, initialize_database 0 emptyDb = some s
      ∧ s.table_columns.length = 6
      ∧ s.users.length = 1
      ∧ (∀ u ∈ s.users, u.username = demoUsername
           ∧ u.password_hash.isSome = true ∧ u.password_hash.getD "" ≠ "")
      ∧ s.categories.length = 6
      ∧ s.videos.length = 10
      ∧ s.watch_history.length = 5
      ∧ (∀ r ∈ s.watch_history, ∃ u ∈ s.users, u.username = demoUsername ∧ r.user_id = u.id)
      ∧ Checker.checkDatabase s = 0 := by
  refine ⟨(initialize_database 0 emptyDb).getD emptyDb, ?_⟩
  decide

namespace SqlTable

lemma lookup_append_of_ne (l : List (String × SqlValue)) (n : String) (d : SqlValue)
    (c : String) (h : c ≠ n) : (l ++ [(n, d)]).lookup c = l.lookup c := by
  induction l with
  | nil =>
      have hb : (c == n) = false := beq_eq_false_iff_ne.mpr h
      simp [List.lookup, hb]
  | cons hd tl ih =>
      rcases hd with ⟨k, v⟩
      by_cases hk : c = k
      · subst hk; simp [List.lookup]
      · have hb : (c == k) = false := beq_eq_false_iff_ne.mpr hk
        simp [List.lookup, hb, ih]

lemma lookup_append_of_none (l : List (String × SqlValue)) (n : String) (d : SqlValue)
    (h : l.lookup n = none) : (l ++ [(n, d)]).lookup n = some d := by
  induction l with
  | nil => simp [List.lookup]
  | cons hd tl ih =>
      rcases hd with ⟨k, v⟩
      by_cases hk : n = k
      · subst hk; simp [List.lookup] at h
      · have hb : (n == k) = false := beq_eq_false_iff_ne.mpr hk
        simp only [List.lookup, hb] at h
        simp only [List.cons_append, List.lookup, hb]
        exact ih h

end SqlTable

/-- C4: `_ensure_column` is a no-op when a column of the parsed name
already exists on the table; when it is absent it appends the column and
extends every existing row — in place, so no row is lost and every other
field keeps its value — with the new column carrying the declared
default; and calling it twice equals calling it once. -/
theorem c4_ensure_column_safe (tbl : Table) (column_def : String) :
    (parseColumnName column_def ∈ tbl.cols → _ensure_column tbl column_def = tbl)
    ∧ (parseColumnName column_def ∉ tbl.cols →
        (_ensure_column tbl column_def).cols = tbl.cols ++ [parseColumnName column_def]
        ∧ (_ensure_column tbl column_def).rows.length = tbl.rows.length
        ∧ ∀ i : Nat, ∀ r, tbl.rows[i]? = some r →
            (_ensure_column tbl column_def).rows[i]? =
              some (r ++ [(parseColumnName column_def, parseColumnDefault column_def)])
            ∧ (∀ c, c ≠ parseColumnName column_def →
                (r ++ [(parseColumnName column_def, parseColumnDefault column_def)]).lookup c
                  = r.lookup c)
            ∧ (r.lookup (parseColumnName column_def) = none →
                (r ++ [(parseColumnName column_def, parseColumnDefault column_def)]).lookup
                  (parseColumnName column_def) = some (parseColumnDefault column_def)))
    ∧ _ensure_column (_ensure_column tbl column_def) column_def
        = _ensure_column tbl column_def := by
  refine ⟨fun hmem => ?_, fun hmem => ?_, ?_⟩
  · simp [_ensure_column, hmem]
  · refine ⟨by simp [_ensure_column, hmem], by simp [_ensure_column, hmem], ?_⟩
    intro i r hr
    refine ⟨?_, fun c hc => lookup_append_of_ne r _ _ c hc,
            fun hnone => lookup_append_of_none r _ _ hnone⟩
    simp [_ensure_column, hmem, List.getElem?_map, hr]
  · by_cases hmem : parseColumnName column_def ∈ tbl.cols
    · simp [_ensure_column, hmem]
    · have h1 : (_ensure_column tbl column_def).cols
          = tbl.cols ++ [parseColumnName column_def] := by
        simp [_ensure_column, hmem]
      have h2 : parseColumnName column_def ∈ (_ensure_column tbl column_def).cols := by
        simp [h1]
      conv_lhs => rw [_ensure_column]
      simp [h2]

/-- Witness for C4 at a one-row `users`-style table and the
`is_active INTEGER NOT NULL DEFAULT 1` migration of `_create_schema`. -/
theorem c4_ensure_column_safe_witness :
    (_ensure_column ⟨["id", "username"],
        [[("id", SqlValue.intVal 1), ("username", SqlValue.textVal "demo_user")]]⟩
      "is_active INTEGER NOT NULL DEFAULT 1").cols = ["id", "username", "is_active"]
    ∧ (_ensure_column ⟨["id", "username"],
        [[("id", SqlValue.intVal 1), ("username", SqlValue.textVal "demo_user")]]⟩
      "is_active INTEGER NOT NULL DEFAULT 1").rows[0]? =
        some [("id", SqlValue.intVal 1), ("username", SqlValue.textVal "demo_user"),
          ("is_active", SqlValue.intVal 1)] := by
  have h := (c4_ensure_column_safe ⟨["id", "username"],
      [[("id", SqlValue.intVal 1), ("username", SqlValue.textVal "demo_user")]]⟩
    "is_active INTEGER NOT NULL DEFAULT 1").2.1 (by decide)
  refine ⟨h.1.trans (by decide), ?_⟩
  have h3 := (h.2.2 0
    [("id", SqlValue.intVal 1), ("username", SqlValue.textVal "demo_user")] (by decide)).1
  exact h3.trans (by decide)

/-- C7: the Integrity Checker's seed-data assertion performs its five
checks in order — (a) at least one users row, (b) a `demo_user` row with a
non-empty password hash, (c) at least 3 categories, (d) at least 8 videos,
(e) at least 1 watch-history row with the demo user's id — and the first
check that fails determines the error, each with its own message, without
the later checks influencing the result; when check (b) has passed, the
demo-user lookup inside check (e) cannot fail. -/
theorem c7_seed_checks_fail_fast (s : Db) :
    (assert_seed_data s =
      if s.users.length < 1 then
        Except.error "Expected at least one user in the users table."
      else if demoUserHashCount s < 1 then
        Except.error "Expected a seeded demo user with a hashed password (username 'demo_user')."
      else if s.categories.length < 3 then
        Except.error ("Expected several categories, found " ++ toString s.categories.length ++ ".")
      else if s.videos.length < 8 then
        Except.error ("Expected at least 8 seeded videos, found " ++ toString s.videos.length ++ ".")
      else
        match s.users.find? (fun u => u.username == demoUsername) with
        | none => Except.error "demo_user not found when checking watch_history."
        | some demo_row =>
            if (s.watch_history.filter (fun r => r.user_id == demo_row.id)).length < 1 then
              Except.error "Expected at least one watch_history row for demo_user."
            else Except.ok ())
    ∧ (1 ≤ demoUserHashCount s →
        (s.users.find? (fun u => u.username == demoUsername)).isSome = true) := by
  constructor
  · unfold assert_seed_data
    split
    · rfl
    · split
      · rfl
      · split
        · rfl
        · split
          · rfl
          · rfl
  · intro hcount
    rw [List.find?_isSome]
    have hne : (s.users.filter (fun u => u.username == demoUsername &&
        match u.password_hash with
        | none => false
        | some h => decide (0 < h.length))) ≠ [] := by
      intro hnil
      rw [demoUserHashCount, hnil] at hcount
      simp at hcount
    rcases List.exists_mem_of_ne_nil _ hne with ⟨u, hu⟩
    have := List.mem_filter.mp hu
    exact ⟨u, this.1, by
      have hb := this.2
      exact (Bool.and_eq_true _ _).mp hb |>.1⟩

/-- Witness for C7 at the seeded cold-start database. -/
theorem c7_seed_checks_fail_fast_witness :
    (((initialize_database 0 emptyDb).getD emptyDb).users.find?
        (fun u => u.username == demoUsername)).isSome = true := by
  exact (c7_seed_checks_fail_fast ((initialize_database 0 emptyDb).getD emptyDb)).2
    (by decide)

namespace Str

lemma data_append (a b : String) : (a ++ b).data = a.data ++ b.data := rfl

lemma splitOnCharAux_append_sep (sep : Char) (l : List Char) :
    ∀ (rest acc : List Char), sep ∉ l →
      splitOnCharAux sep (l ++ sep :: rest) acc
        = String.mk (acc.reverse ++ l) :: splitOnCharAux sep rest [] := by
  induction l with
  | nil => intro rest acc _; simp [splitOnCharAux]
  | cons c cs ih =>
      intro rest acc h
      have hc : (c == sep) = false :=
        beq_eq_false_iff_ne.mpr (fun e => h (e ▸ List.mem_cons_self c cs))
      have hcs : sep ∉ cs := fun hm => h (List.mem_cons_of_mem c hm)
      simp only [List.cons_append, splitOnCharAux, hc, Bool.false_eq_true, if_false,
        List.append_eq]
      rw [ih rest (c :: acc) hcs]
      simp [List.append_assoc]

lemma splitOnCharAux_no_sep (sep : Char) (l : List Char) :
    ∀ acc : List Char, sep ∉ l →
      splitOnCharAux sep l acc = [String.mk (acc.reverse ++ l)] := by
  induction l with
  | nil => intro acc _; simp [splitOnCharAux]
  | cons c cs ih =>
      intro acc h
      have hc : (c == sep) = false :=
        beq_eq_false_iff_ne.mpr (fun e => h (e ▸ List.mem_cons_self c cs))
      have hcs : sep ∉ cs := fun hm => h (List.mem_cons_of_mem c hm)
      simp only [splitOnCharAux, hc, Bool.false_eq_true, if_false]
      rw [ih (c :: acc) hcs]
      simp [List.append_assoc]

end Str

namespace ConnFile

lemma normalizeNewlines_eq_self (l : List Char) (h : '\r' ∉ l) :
    normalizeNewlines l = l := by
  induction l with
  | nil => rfl
  | cons c rest ih =>
      have hc : c ≠ '\r' := fun e => h (e ▸ List.mem_cons_self c rest)
      have hr : '\r' ∉ rest := fun hm => h (List.mem_cons_of_mem c hm)
      rw [normalizeNewlines.eq_def]
      split
      · simp_all
      · simp_all
      · simp_all
      · simp_all
      · rename_i x c' rest' heq
        injection heq with h1 h2
        subst h1; subst h2
        rw [ih hr]

lemma pyStrip_eq_self (s : String)
    (h1 : ∀ c, s.data.head? = some c → isPyWhitespace c = false)
    (h2 : ∀ c, s.data.getLast? = some c → isPyWhitespace c = false) :
    pyStrip s = s := by
  obtain ⟨l⟩ := s
  cases l with
  | nil => rfl
  | cons c cs =>
      have hc : isPyWhitespace c = false := h1 c rfl
      show String.mk ((((c :: cs).dropWhile isPyWhitespace).reverse.dropWhile
        isPyWhitespace).reverse) = String.mk (c :: cs)
      rw [List.dropWhile_cons]
      simp only [hc, Bool.false_eq_true, if_false]
      rcases hrev : (c :: cs).reverse with _ | ⟨d, ds⟩
      · exact absurd hrev (by simp)
      · have hd : isPyWhitespace d = false := by
          apply h2
          rw [← List.head?_reverse, hrev]; rfl
        rw [List.dropWhile_cons]
        simp only [hd, Bool.false_eq_true, if_false]
        rw [← hrev, List.reverse_reverse]

lemma pyStrip_cons_ws (c : Char) (l : List Char) (hcws : isPyWhitespace c = true) :
    pyStrip (String.mk (c :: l)) = pyStrip (String.mk l) := by
  show String.mk ((((c :: l).dropWhile isPyWhitespace).reverse.dropWhile
    isPyWhitespace).reverse) = _
  rw [List.dropWhile_cons]
  simp only [hcws, if_true]
  rfl

end ConnFile

namespace Str

lemma not_mem_append {α : Type} {a : α} {l₁ l₂ : List α} (h1 : a ∉ l₁) (h2 : a ∉ l₂) :
    a ∉ l₁ ++ l₂ := by simp [List.mem_append, h1, h2]

lemma not_mem_cons {α : Type} {a b : α} {l : List α} (h1 : a ≠ b) (h2 : a ∉ l) :
    a ∉ b :: l := by simp [List.mem_cons, h1, h2]

end Str

/-- C9 (counterexample): the write-then-parse round trip does not recover
every absolute path: for the absolute path `"/tmp/demo.db "` (trailing
space) the parser's `strip()` returns `"/tmp/demo.db"` instead. -/
theorem c9_connection_file_roundtrip_counterexample :
    Str.strStartsWith "/tmp/demo.db " "/" = true
    ∧ parseConnectionContent (writeConnectionContent "/tmp/demo.db ") = some "/tmp/demo.db"
    ∧ ("/tmp/demo.db" : String) ≠ "/tmp/demo.db " := by
  decide

/-- C9 (amended): for every absolute database path that survives
`str.strip()` (no leading/trailing whitespace), contains no newline
characters, and is `os.path.normpath`-normal, the connection file written
by `_write_connection_files` consists of exactly the four documented lines
— among them `# Connection string: sqlite:///<path>` and
`# File path: <path>` — and the prefix-matching parser of
`_get_db_path_from_connection_file` applied to that file recovers exactly
the path that was written. -/
theorem c9_connection_file_roundtrip (p : String)
    (habs : Str.strStartsWith p "/" = true)
    (hnl : '\n' ∉ p.data) (hcr : '\r' ∉ p.data)
    (hlast : ∀ c, p.data.getLast? = some c → isPyWhitespace c = false)
    (hnorm : normpathAbs p = p) :
    splitLines (writeConnectionContent p) =
      ["# SQLite connection methods:",
       "# Python: sqlite3.connect('" ++ p ++ "')",
       "# Connection string: sqlite:///" ++ p,
       "# File path: " ++ p, ""]
    ∧ parseConnectionContent (writeConnectionContent p) = some p := by
  obtain ⟨pl⟩ := p
  obtain ⟨cs, rfl⟩ : ∃ cs, pl = '/' :: cs := by
    cases pl with
    | nil => simp [Str.strStartsWith, Str.charsStartWith] at habs
    | cons c cs' =>
        simp [Str.strStartsWith, Str.charsStartWith] at habs
        exact ⟨cs', by rw [habs]⟩
  obtain ⟨d, hd⟩ : ∃ d, ('/' :: cs).getLast? = some d := by
    cases hgl : ('/' :: cs).getLast? with
    | none => exact absurd (List.getLast?_eq_none_iff.mp hgl) (by simp)
    | some d => exact ⟨d, rfl⟩
  have hdws : isPyWhitespace d = false := hlast d hd
  have hdata : (writeConnectionContent (String.mk ('/' :: cs))).data
      = "# SQLite connection methods:".data ++ '\n' ::
        (("# Python: sqlite3.connect('".data ++ ('/' :: cs) ++ "')".data) ++ '\n' ::
          (("# Connection string: sqlite:///".data ++ ('/' :: cs)) ++ '\n' ::
            (("# File path: ".data ++ ('/' :: cs)) ++ '\n' :: ([] : List Char)))) := by
    simp [writeConnectionContent, Str.data_append, List.append_assoc]
  have hcrc : '\r' ∉ (writeConnectionContent (String.mk ('/' :: cs))).data := by
    rw [hdata]
    exact Str.not_mem_append (by decide) (Str.not_mem_cons (by decide)
      (Str.not_mem_append (Str.not_mem_append (Str.not_mem_append (by decide) hcr) (by decide))
        (Str.not_mem_cons (by decide)
          (Str.not_mem_append (Str.not_mem_append (by decide) hcr)
            (Str.not_mem_cons (by decide)
              (Str.not_mem_append (Str.not_mem_append (by decide) hcr)
                (Str.not_mem_cons (by decide) (by decide))))))))
  have hsplit : splitLines (writeConnectionContent (String.mk ('/' :: cs))) =
      ["# SQLite connection methods:",
       "# Python: sqlite3.connect('" ++ String.mk ('/' :: cs) ++ "')",
       "# Connection string: sqlite:///" ++ String.mk ('/' :: cs),
       "# File path: " ++ String.mk ('/' :: cs), ""] := by
    show Str.splitOnChar '\n'
      (String.mk (normalizeNewlines (writeConnectionContent (String.mk ('/' :: cs))).data)) = _
    rw [normalizeNewlines_eq_self _ hcrc, hdata]
    show Str.splitOnCharAux '\n' _ [] = _
    rw [Str.splitOnCharAux_append_sep '\n' _ _ _ (by decide)]
    rw [Str.splitOnCharAux_append_sep '\n' _ _ _
      (Str.not_mem_append (Str.not_mem_append (by decide) hnl) (by decide))]
    rw [Str.splitOnCharAux_append_sep '\n' _ _ _ (Str.not_mem_append (by decide) hnl)]
    rw [Str.splitOnCharAux_append_sep '\n' _ _ _ (Str.not_mem_append (by decide) hnl)]
    simp only [List.reverse_nil, List.nil_append]
    rfl
  refine ⟨hsplit, ?_⟩
  have h2 : parseStep (none, none)
      ("# Python: sqlite3.connect('" ++ String.mk ('/' :: cs) ++ "')") = (none, none) := by
    have hstrip2 : pyStrip ("# Python: sqlite3.connect('" ++ String.mk ('/' :: cs) ++ "')")
        = "# Python: sqlite3.connect('" ++ String.mk ('/' :: cs) ++ "')" := by
      apply pyStrip_eq_self
      · intro c hc
        rw [show ("# Python: sqlite3.connect('" ++ String.mk ('/' :: cs) ++ "')").data.head?
            = some '#' from rfl] at hc
        cases hc; decide
      · intro c hc
        rw [show ("# Python: sqlite3.connect('" ++ String.mk ('/' :: cs) ++ "')").data
            = ("# Python: sqlite3.connect('".data ++ ('/' :: cs)) ++ "')".data from rfl,
          List.getLast?_append] at hc
        simp at hc
        cases hc; decide
    simp only [parseStep, hstrip2]
    rw [show Str.strStartsWith ("# Python: sqlite3.connect('" ++ String.mk ('/' :: cs) ++ "')")
        "# File path:" = false from rfl]
    rw [show Str.strStartsWith ("# Python: sqlite3.connect('" ++ String.mk ('/' :: cs) ++ "')")
        "# Connection string:" = false from rfl]
    simp
  have h3 : parseStep (none, none) ("# Connection string: sqlite:///" ++ String.mk ('/' :: cs))
      = (none, some ("sqlite:///" ++ String.mk ('/' :: cs))) := by
    have hstrip3 : pyStrip ("# Connection string: sqlite:///" ++ String.mk ('/' :: cs))
        = "# Connection string: sqlite:///" ++ String.mk ('/' :: cs) := by
      apply pyStrip_eq_self
      · intro c hc
        rw [show ("# Connection string: sqlite:///" ++ String.mk ('/' :: cs)).data.head?
            = some '#' from rfl] at hc
        cases hc; decide
      · intro c hc
        rw [show ("# Connection string: sqlite:///" ++ String.mk ('/' :: cs)).data
            = "# Connection string: sqlite:///".data ++ ('/' :: cs) from rfl,
          List.getLast?_append, hd] at hc
        simp at hc
        subst hc; exact hdws
    simp only [parseStep, hstrip3]
    rw [show Str.strStartsWith ("# Connection string: sqlite:///" ++ String.mk ('/' :: cs))
        "# File path:" = false from rfl]
    rw [show Str.strStartsWith ("# Connection string: sqlite:///" ++ String.mk ('/' :: cs))
        "# Connection string:" = true from rfl]
    simp only [if_true, Bool.false_eq_true, if_false]
    rw [show afterFirstColon ("# Connection string: sqlite:///" ++ String.mk ('/' :: cs))
        = String.mk (' ' :: ("sqlite:///".data ++ '/' :: cs)) from rfl]
    rw [pyStrip_cons_ws _ _ (by decide)]
    rw [show String.mk ("sqlite:///".data ++ '/' :: cs)
        = "sqlite:///" ++ String.mk ('/' :: cs) from rfl]
    have hstripurl : pyStrip ("sqlite:///" ++ String.mk ('/' :: cs))
        = "sqlite:///" ++ String.mk ('/' :: cs) := by
      apply pyStrip_eq_self
      · intro c hc
        rw [show ("sqlite:///" ++ String.mk ('/' :: cs)).data.head? = some 's' from rfl] at hc
        cases hc; decide
      · intro c hc
        rw [show ("sqlite:///" ++ String.mk ('/' :: cs)).data
            = "sqlite:///".data ++ '/' :: cs from rfl, List.getLast?_append, hd] at hc
        simp at hc
        subst hc; exact hdws
    rw [hstripurl]
  have h4 : ∀ acc : Option String × Option String,
      parseStep acc ("# File path: " ++ String.mk ('/' :: cs))
        = (some (String.mk ('/' :: cs)), acc.2) := by
    intro acc
    have hstrip4 : pyStrip (String.mk ('/' :: cs)) = String.mk ('/' :: cs) := by
      apply pyStrip_eq_self
      · intro c hc
        cases hc; decide
      · intro c hc
        rw [show (String.mk ('/' :: cs)).data = '/' :: cs from rfl, hd] at hc
        cases hc; exact hdws
    have hstripline : pyStrip ("# File path: " ++ String.mk ('/' :: cs))
        = "# File path: " ++ String.mk ('/' :: cs) := by
      apply pyStrip_eq_self
      · intro c hc
        rw [show ("# File path: " ++ String.mk ('/' :: cs)).data.head? = some '#' from rfl] at hc
        cases hc; decide
      · intro c hc
        rw [show ("# File path: " ++ String.mk ('/' :: cs)).data
            = "# File path: ".data ++ '/' :: cs from rfl, List.getLast?_append, hd] at hc
        simp at hc
        subst hc; exact hdws
    simp only [parseStep, hstripline]
    rw [show Str.strStartsWith ("# File path: " ++ String.mk ('/' :: cs))
        "# File path:" = true from rfl]
    simp only [if_true]
    rw [show afterFirstColon ("# File path: " ++ String.mk ('/' :: cs))
        = String.mk (' ' :: ('/' :: cs)) from rfl]
    rw [pyStrip_cons_ws _ _ (by decide), hstrip4]
  have h5 : ∀ acc : Option String × Option String, parseStep acc "" = acc := by
    intro acc
    simp only [parseStep]
    rw [show Str.strStartsWith (pyStrip "") "# File path:" = false from rfl,
        show Str.strStartsWith (pyStrip "") "# Connection string:" = false from rfl]
    simp
  show parseConnectionContent _ = _
  simp only [parseConnectionContent]
  rw [hsplit]
  simp only [List.foldl_cons, List.foldl_nil]
  rw [show parseStep (none, none) "# SQLite connection methods:" = (none, none) from by decide]
  rw [h2, h3, h4, h5]
  rw [show pyFalsy (some (String.mk ('/' :: cs))) = false from rfl]
  simp only [Bool.false_and, Bool.false_eq_true, if_false]
  show some (abspathModel (String.mk ('/' :: cs))) = _
  simp only [abspathModel]
  rw [show Str.strStartsWith (String.mk ('/' :: cs)) "/" = true from rfl]
  simp only [if_true]
  rw [hnorm]

/-- Witness for C9 at the path `/tmp/demo.db`. -/
theorem c9_connection_file_roundtrip_witness :
    parseConnectionContent (writeConnectionContent "/tmp/demo.db") = some "/tmp/demo.db" :=
  (c9_connection_file_roundtrip "/tmp/demo.db" (by decide) (by decide) (by decide)
    (by decide) (by decide)).2

namespace StreamingDb

lemma filter_key_replace_self (k v : String) (t : Nat) (s : Db) :
    ((insertOrReplaceAppInfo k v t s).app_info.filter (fun x => x.key == k))
      = [⟨s.next_app_info_id, k, v, t⟩] := by
  have hgone : ∀ l : List AppInfoRow,
      (l.filter (fun x => x.key != k)).filter (fun x => x.key == k) = [] := by
    intro l
    induction l with
    | nil => rfl
    | cons a as ih =>
        by_cases h : a.key = k
        · have hb : (a.key != k) = false := by simp [h]
          simp only [List.filter_cons, hb, Bool.false_eq_true, if_false, ih]
        · have hb : (a.key != k) = true := by simp [bne_iff_ne, h]
          have hb2 : (a.key == k) = false := beq_eq_false_iff_ne.mpr h
          simp only [List.filter_cons, hb, if_true, hb2, Bool.false_eq_true, if_false, ih]
  show ((s.app_info.filter (fun (x : AppInfoRow) => x.key != k) ++
      ([⟨s.next_app_info_id, k, v, t⟩] : List AppInfoRow)).filter
        (fun (x : AppInfoRow) => x.key == k)) = _
  rw [List.filter_append, hgone]
  simp only [List.filter_cons, beq_self_eq_true, if_true, List.filter_nil, List.nil_append]

lemma filter_key_replace_ne (k k' v : String) (t : Nat) (s : Db) (h : k' ≠ k) :
    ((insertOrReplaceAppInfo k v t s).app_info.filter (fun x => x.key == k'))
      = s.app_info.filter (fun x => x.key == k') := by
  have hkeep : ∀ l : List AppInfoRow,
      (l.filter (fun x => x.key != k)).filter (fun x => x.key == k')
        = l.filter (fun x => x.key == k') := by
    intro l
    induction l with
    | nil => rfl
    | cons a as ih =>
        by_cases ha : a.key = k
        · have hbne : (a.key != k) = false := by simp [ha]
          have hb' : (a.key == k') = false :=
            beq_eq_false_iff_ne.mpr (by rw [ha]; exact Ne.symm h)
          simp only [List.filter_cons, hbne, Bool.false_eq_true, if_false, hb', ih]
        · have hbne : (a.key != k) = true := by simp [bne_iff_ne, ha]
          by_cases ha' : a.key = k'
          · have hb' : (a.key == k') = true := by simp [ha']
            simp only [List.filter_cons, hbne, if_true, hb', ih]
          · have hb' : (a.key == k') = false := beq_eq_false_iff_ne.mpr ha'
            simp only [List.filter_cons, hbne, if_true, hb', Bool.false_eq_true, if_false, ih]
  have hnew : ((⟨s.next_app_info_id, k, v, t⟩ : AppInfoRow).key == k') = false :=
    beq_eq_false_iff_ne.mpr (Ne.symm h)
  show ((s.app_info.filter (fun (x : AppInfoRow) => x.key != k) ++
      ([⟨s.next_app_info_id, k, v, t⟩] : List AppInfoRow)).filter
        (fun (x : AppInfoRow) => x.key == k')) = _
  rw [List.filter_append, hkeep]
  simp only [List.filter_cons, hnew, Bool.false_eq_true, if_false, List.filter_nil,
    List.append_nil]

lemma seed_fold_preserves_filter (entries : List (String × String)) (t : Nat) (k : String) :
    ∀ s : Db, k ∉ entries.map Prod.fst →
      ((entries.foldl (fun s kv => insertOrReplaceAppInfo kv.1 kv.2 t s) s).app_info.filter
          (fun x => x.key == k))
        = s.app_info.filter (fun x => x.key == k) := by
  induction entries with
  | nil => intro s _; rfl
  | cons e es ih =>
      intro s h
      have hke : k ≠ e.1 := fun he => h (by simp [he])
      have hes : k ∉ es.map Prod.fst := fun hm => h (by simp; right; simpa using hm)
      simp only [List.foldl_cons]
      rw [ih _ hes, filter_key_replace_ne e.1 k e.2 t s hke]

lemma seed_fold_next_mono (entries : List (String × String)) (t : Nat) :
    ∀ s : Db, s.next_app_info_id ≤
      (entries.foldl (fun s kv => insertOrReplaceAppInfo kv.1 kv.2 t s) s).next_app_info_id := by
  induction entries with
  | nil => intro s; exact le_refl _
  | cons e es ih =>
      intro s
      simp only [List.foldl_cons]
      exact le_trans (Nat.le_succ _) (ih (insertOrReplaceAppInfo e.1 e.2 t s))

lemma seed_app_info_filter_eq (entries : List (String × String)) (t : Nat) (k v : String) :
    ∀ s : Db, (k, v) ∈ entries → (entries.map Prod.fst).Nodup →
      ∃ n, ((entries.foldl (fun s kv => insertOrReplaceAppInfo kv.1 kv.2 t s) s).app_info.filter
          (fun x => x.key == k)) = [⟨n, k, v, t⟩] ∧ s.next_app_info_id ≤ n := by
  induction entries with
  | nil => intro s h _; cases h
  | cons e es ih =>
      intro s hmem hnodup
      rcases List.mem_cons.mp hmem with he | hes
      · refine ⟨s.next_app_info_id, ?_, le_refl _⟩
        have hk : k ∉ es.map Prod.fst := by
          have := (List.nodup_cons.mp hnodup).1
          rw [← he] at this
          simpa using this
        simp only [List.foldl_cons]
        rw [seed_fold_preserves_filter es t k _ hk, ← he, filter_key_replace_self]
      · obtain ⟨n, hfil, hn⟩ :=
          ih (insertOrReplaceAppInfo e.1 e.2 t s) hes (List.nodup_cons.mp hnodup).2
        exact ⟨n, by simpa only [List.foldl_cons] using hfil,
          le_trans (Nat.le_succ _) hn⟩

end StreamingDb

/-- C10: for every `app_info` key of the seed set that already has a row,
re-running `_seed_app_info` replaces the whole row rather than updating it
in place: afterwards exactly one row holds that key, its surrogate `id` is
a fresh auto-increment value strictly greater than the old row's id (so the
id changes), its `created_at` is the re-seed time `t`, and its value is the
canonical seeded value.  The freshness hypothesis `r.id <
s.next_app_info_id` is the invariant SQLite maintains through
`AUTOINCREMENT`. -/
theorem c10_app_info_replaces_row (t : Nat) (s : Db) (r : AppInfoRow) (v : String)
    (_hr : r ∈ s.app_info) (hkv : (r.key, v) ∈ appInfoEntries)
    (hid : r.id < s.next_app_info_id) :
    ∃ r' : AppInfoRow,
      ((_seed_app_info t s).app_info.filter (fun x => x.key == r.key)) = [r']
      ∧ r'.key = r.key ∧ r'.value = v ∧ r'.created_at = t ∧ r.id < r'.id := by
  obtain ⟨n, hfil, hn⟩ :=
    seed_app_info_filter_eq appInfoEntries t r.key v s hkv (by decide)
  exact ⟨⟨n, r.key, v, t⟩, hfil, rfl, rfl, rfl, lt_of_lt_of_le hid hn⟩

/-- Witness for C10: a store holding a stale `version` row with id 1. -/
theorem c10_app_info_replaces_row_witness :
    ∃ r' : AppInfoRow,
      ((_seed_app_info 7 { emptyDb with
          app_info := [⟨1, "version", "0.1.0", 0⟩],
          next_app_info_id := 2 }).app_info.filter (fun x => x.key == "version")) = [r']
      ∧ r'.key = "version" ∧ r'.value = "0.2.0" ∧ r'.created_at = 7 ∧ 1 < r'.id := by
  have h := c10_app_info_replaces_row 7
    { emptyDb with app_info := [⟨1, "version", "0.1.0", 0⟩], next_app_info_id := 2 }
    ⟨1, "version", "0.1.0", 0⟩ "0.2.0" (by decide) (by decide) (by decide)
  simpa using h

namespace StreamingDb

lemma filter_pair_replace_self (uid vid prog comp t : Nat) (s : Db) :
    ((insertOrReplaceWatchHistory uid vid prog comp t s).watch_history.filter
        (fun r => r.user_id == uid && r.video_id == vid))
      = [⟨s.next_watch_history_id, uid, vid, prog, comp, t⟩] := by
  have hgone : ∀ l : List WatchHistoryRow,
      (l.filter (fun r => !(r.user_id == uid && r.video_id == vid))).filter
          (fun r => r.user_id == uid && r.video_id == vid) = [] := by
    intro l
    induction l with
    | nil => rfl
    | cons a as ih =>
        by_cases h : (a.user_id == uid && a.video_id == vid) = true
        · simp only [List.filter_cons, h, Bool.not_true, Bool.false_eq_true, if_false, ih]
        · have h' : (a.user_id == uid && a.video_id == vid) = false :=
            Bool.eq_false_iff.mpr h
          simp only [List.filter_cons, h', Bool.not_false, if_true, Bool.false_eq_true,
            if_false, ih]
  show (((s.watch_history.filter (fun (r : WatchHistoryRow) =>
      !(r.user_id == uid && r.video_id == vid))) ++
      ([⟨s.next_watch_history_id, uid, vid, prog, comp, t⟩] : List WatchHistoryRow)).filter
        (fun (r : WatchHistoryRow) => r.user_id == uid && r.video_id == vid)) = _
  rw [List.filter_append, hgone]
  simp only [List.filter_cons, beq_self_eq_true, Bool.and_self, if_true, List.filter_nil,
    List.nil_append]

lemma filter_pair_replace_ne (u v uid vid prog comp t : Nat) (s : Db)
    (h : ¬(u = uid ∧ v = vid)) :
    ((insertOrReplaceWatchHistory uid vid prog comp t s).watch_history.filter
        (fun r => r.user_id == u && r.video_id == v))
      = s.watch_history.filter (fun r => r.user_id == u && r.video_id == v) := by
  have hkeep : ∀ l : List WatchHistoryRow,
      (l.filter (fun r => !(r.user_id == uid && r.video_id == vid))).filter
          (fun r => r.user_id == u && r.video_id == v)
        = l.filter (fun r => r.user_id == u && r.video_id == v) := by
    intro l
    induction l with
    | nil => rfl
    | cons a as ih =>
        by_cases hrem : (a.user_id == uid && a.video_id == vid) = true
        · have hP : (a.user_id == u && a.video_id == v) = false := by
            rcases (Bool.and_eq_true _ _).mp hrem with ⟨h1, h2⟩
            cases hq : (a.user_id == u && a.video_id == v) with
            | false => rfl
            | true =>
                rcases (Bool.and_eq_true _ _).mp hq with ⟨h3, h4⟩
                exact absurd ⟨(beq_iff_eq.mp h3).symm.trans (beq_iff_eq.mp h1),
                              (beq_iff_eq.mp h4).symm.trans (beq_iff_eq.mp h2)⟩ h
          simp only [List.filter_cons, hrem, Bool.not_true, Bool.false_eq_true, if_false,
            hP, ih]
        · have hrem' : (!(a.user_id == uid && a.video_id == vid)) = true := by
            simp [Bool.eq_false_iff.mpr hrem]
          simp only [List.filter_cons, hrem', if_true, ih]
  have hnew : ((⟨s.next_watch_history_id, uid, vid, prog, comp, t⟩ :
      WatchHistoryRow).user_id == u && (⟨s.next_watch_history_id, uid, vid, prog, comp, t⟩ :
      WatchHistoryRow).video_id == v) = false := by
    cases hq : ((⟨s.next_watch_history_id, uid, vid, prog, comp, t⟩ :
        WatchHistoryRow).user_id == u && (⟨s.next_watch_history_id, uid, vid, prog, comp, t⟩ :
        WatchHistoryRow).video_id == v) with
    | false => rfl
    | true =>
        rcases (Bool.and_eq_true _ _).mp hq with ⟨h3, h4⟩
        exact absurd ⟨(beq_iff_eq.mp h3).symm, (beq_iff_eq.mp h4).symm⟩ h
  show (((s.watch_history.filter (fun (r : WatchHistoryRow) =>
      !(r.user_id == uid && r.video_id == vid))) ++
      ([⟨s.next_watch_history_id, uid, vid, prog, comp, t⟩] : List WatchHistoryRow)).filter
        (fun (r : WatchHistoryRow) => r.user_id == u && r.video_id == v)) = _
  rw [List.filter_append, hkeep]
  simp only [List.filter_cons, hnew, Bool.false_eq_true, if_false, List.filter_nil,
    List.append_nil]

end StreamingDb

namespace StreamingDb

lemma wh_fold_preserves_filter (samples : List (String × Nat × Nat)) (t uid : Nat)
    (vids : List (String × Nat)) (u v : Nat) :
    ∀ s : Db, (∀ smp ∈ samples, ∀ vid, dictGet vids smp.1 = some vid →
        ¬(u = uid ∧ v = vid)) →
      ((samples.foldl (watchStep t uid vids) s).watch_history.filter
          (fun r => r.user_id == u && r.video_id == v))
        = s.watch_history.filter (fun r => r.user_id == u && r.video_id == v) := by
  induction samples with
  | nil => intro s _; rfl
  | cons smp rest ih =>
      intro s h
      simp only [List.foldl_cons]
      rw [ih _ (fun smp' hm vid hv => h smp' (List.mem_cons_of_mem smp hm) vid hv)]
      cases hlk : dictGet vids smp.1 with
      | none => rw [watchStep, hlk]
      | some vid =>
          rw [watchStep, hlk]
          exact filter_pair_replace_ne u v uid vid smp.2.1 smp.2.2 t s
            (h smp (List.mem_cons_self smp rest) vid hlk)

lemma wh_fold_le_one (samples : List (String × Nat × Nat)) (t uid : Nat)
    (vids : List (String × Nat)) :
    ∀ s : Db, (∀ u v : Nat, (s.watch_history.filter
        (fun r => r.user_id == u && r.video_id == v)).length ≤ 1) →
      ∀ u v : Nat, ((samples.foldl (watchStep t uid vids) s).watch_history.filter
          (fun r => r.user_id == u && r.video_id == v)).length ≤ 1 := by
  induction samples with
  | nil => intro s h; exact h
  | cons smp rest ih =>
      intro s h
      simp only [List.foldl_cons]
      apply ih
      intro u v
      cases hlk : dictGet vids smp.1 with
      | none => rw [watchStep, hlk]; exact h u v
      | some vid =>
          rw [watchStep, hlk]
          by_cases hp : u = uid ∧ v = vid
          · obtain ⟨rfl, rfl⟩ := hp
            rw [filter_pair_replace_self]
            exact le_refl 1
          · rw [filter_pair_replace_ne u v uid vid smp.2.1 smp.2.2 t s hp]
            exact h u v

lemma wh_fold_last_wins (samples : List (String × Nat × Nat)) (t uid : Nat)
    (vids : List (String × Nat)) :
    ∀ (s : Db) (i : Nat) (smp : String × Nat × Nat), samples[i]? = some smp →
      ∀ vid, dictGet vids smp.1 = some vid →
      (∀ j, i < j → ∀ smp', samples[j]? = some smp' → dictGet vids smp'.1 ≠ some vid) →
      ∃ id, ((samples.foldl (watchStep t uid vids) s).watch_history.filter
          (fun r => r.user_id == uid && r.video_id == vid))
        = [⟨id, uid, vid, smp.2.1, smp.2.2, t⟩] := by
  induction samples with
  | nil => intro s i smp h; simp at h
  | cons x rest ih =>
      intro s i smp hi vid hvid hlater
      cases i with
      | zero =>
          have hx : x = smp := by simpa using hi
          simp only [List.foldl_cons]
          have hrest : ∀ smp' ∈ rest, ∀ vid', dictGet vids smp'.1 = some vid' →
              ¬(uid = uid ∧ vid = vid') := by
            intro smp' hm vid' hv' hcontra
            obtain ⟨j, hjw⟩ := List.getElem?_of_mem hm
            apply hlater (j + 1) (Nat.succ_pos j) smp' (by simpa using hjw)
            rw [hcontra.2]; exact hv'
          rw [wh_fold_preserves_filter rest t uid vids uid vid _ hrest]
          rw [show watchStep t uid vids s x
              = insertOrReplaceWatchHistory uid vid smp.2.1 smp.2.2 t s from by
            rw [hx, watchStep, hvid]]
          exact ⟨s.next_watch_history_id, filter_pair_replace_self uid vid smp.2.1 smp.2.2 t s⟩
      | succ i' =>
          simp only [List.foldl_cons]
          apply ih (watchStep t uid vids s x) i' smp (by simpa using hi) vid hvid
          intro j hj smp' hj'
          exact hlater (j + 1) (by omega) smp' (by simpa using hj')

end StreamingDb

/-- C5: after a seed run on a store where every `(user_id, video_id)` pair
has at most one watch-history row (the `UNIQUE(user_id, video_id)`
invariant), every pair still has at most one row; and for every sample
whose slug resolves to a video id that no later sample resolves to,
exactly one row for `(demo_user_id, video_id)` remains and it is the
freshly inserted row carrying exactly the sample's `progress_seconds` and
`completed` and the new timestamp — a wholesale replacement, not a merge
with the old values. -/
theorem c5_watch_history_replace (t uid : Nat) (vids : List (String × Nat)) (s : Db)
    (hone : ∀ u v : Nat, (s.watch_history.filter
        (fun r => r.user_id == u && r.video_id == v)).length ≤ 1) :
    (∀ u v : Nat, ((_seed_watch_history t uid vids s).watch_history.filter
        (fun r => r.user_id == u && r.video_id == v)).length ≤ 1)
    ∧ ∀ (i : Nat) (smp : String × Nat × Nat), watchSamples[i]? = some smp →
        ∀ vid, dictGet vids smp.1 = some vid →
        (∀ j, i < j → ∀ smp', watchSamples[j]? = some smp' →
            dictGet vids smp'.1 ≠ some vid) →
        ∃ id, ((_seed_watch_history t uid vids s).watch_history.filter
            (fun r => r.user_id == uid && r.video_id == vid))
          = [⟨id, uid, vid, smp.2.1, smp.2.2, t⟩] := by
  constructor
  · exact wh_fold_le_one watchSamples t uid vids s hone
  · intro i smp hi vid hvid hlater
    exact wh_fold_last_wins watchSamples t uid vids s i smp hi vid hvid hlater

/-- Witness for C5: re-seeding over a store that already holds a stale row
for the demo user and video 5 (`edge-of-reality`) leaves exactly one row
with the new values 900/0. -/
theorem c5_watch_history_replace_witness :
    ∃ id, ((_seed_watch_history 9 1 [("edge-of-reality", 5)]
        { emptyDb with
          watch_history := [⟨1, 1, 5, 777, 1, 0⟩],
          next_watch_history_id := 2 }).watch_history.filter
          (fun r => r.user_id == 1 && r.video_id == 5))
      = [⟨id, 1, 5, 900, 0, 9⟩] := by
  refine (c5_watch_history_replace 9 1 [("edge-of-reality", 5)]
    { emptyDb with watch_history := [⟨1, 1, 5, 777, 1, 0⟩], next_watch_history_id := 2 }
    ?_).2 4 ("edge-of-reality", 900, 0) (by decide) 5 (by decide) ?_
  · intro u v
    exact le_trans (List.length_filter_le _ _) (by decide)
  · intro j hj smp' hj'
    have hnone : watchSamples[j]? = none := by
      apply List.getElem?_eq_none
      show watchSamples.length ≤ j
      have h5 : watchSamples.length = 5 := rfl
      omega
    rw [hnone] at hj'
    cases hj'

namespace StreamingDb

lemma demoUpdate_username (u : UserRow) : (demoUpdate u).username = u.username := by
  unfold demoUpdate; split <;> rfl

lemma demoUpdate_of_demo (u : UserRow) (h : u.username = demoUsername) :
    (demoUpdate u).email = demoEmail ∧ (demoUpdate u).password_hash = some demoPasswordHash
    ∧ (demoUpdate u).full_name = demoFullName ∧ (demoUpdate u).is_active = 1 := by
  unfold demoUpdate
  rw [if_pos (by simp [h])]
  exact ⟨rfl, rfl, rfl, rfl⟩

end StreamingDb

/-- C6 (amended): `_seed_demo_user` inserts the demo row exactly when no
row with username `demo_user` *and no row with email `demo@example.com`*
exists (the `INSERT OR IGNORE` is also suppressed by the email `UNIQUE`
constraint); it then unconditionally updates every `demo_user` row's
email, password hash, full name and active flag to the canonical seed
values and returns that row's id; and it raises exactly when either the
update would violate email uniqueness or no `demo_user` row exists after
the upsert. -/
theorem c6_demo_user_upsert (t : Nat) (s : Db) :
    (_seed_demo_user t s = none ↔
      ((¬∃ u ∈ s.users, u.username = demoUsername) ∧ (∃ u ∈ s.users, u.email = demoEmail))
      ∨ ((∃ u ∈ s.users, u.username = demoUsername) ∧
          ((∃ u ∈ s.users, u.username ≠ demoUsername ∧ u.email = demoEmail)
            ∨ 2 ≤ (s.users.filter (fun u => u.username == demoUsername)).length)))
    ∧ ∀ uid s', _seed_demo_user t s = some (uid, s') →
        (s'.users.length =
          if ∃ u ∈ s.users, u.username = demoUsername ∨ u.email = demoEmail
          then s.users.length else s.users.length + 1)
        ∧ (∃ u ∈ s'.users, u.username = demoUsername ∧ u.id = uid)
        ∧ ∀ u ∈ s'.users, u.username = demoUsername →
            u.email = demoEmail ∧ u.password_hash = some demoPasswordHash
            ∧ u.full_name = demoFullName ∧ u.is_active = 1 := by
  by_cases hA : ∃ u ∈ s.users, u.username = demoUsername ∨ u.email = demoEmail
  · have hb : (s.users.any (fun u => u.username == demoUsername || u.email == demoEmail))
        = true := by
      simp only [List.any_eq_true, Bool.or_eq_true, beq_iff_eq]
      exact hA
    by_cases hc : demoUpdateConflict s.users
    · have hres : _seed_demo_user t s = none := by
        unfold _seed_demo_user
        rw [if_pos hb, if_pos hc]
      constructor
      · rw [hres]
        simp only [true_iff]
        exact Or.inr hc
      · intro uid s' heq
        rw [hres] at heq
        cases heq
    · cases hf : (s.users.map demoUpdate).find? (fun u => u.username == demoUsername) with
      | none =>
          have hres : _seed_demo_user t s = none := by
            unfold _seed_demo_user
            rw [if_pos hb, if_neg hc]
            simp only [hf]
          have hnodemo : ¬∃ u ∈ s.users, u.username = demoUsername := by
            intro ⟨u, hu, hname⟩
            have := List.find?_eq_none.mp hf (demoUpdate u) (List.mem_map_of_mem _ hu)
            simp [demoUpdate_username, hname] at this
          constructor
          · rw [hres]
            simp only [true_iff]
            left
            refine ⟨hnodemo, ?_⟩
            obtain ⟨u, hu, hor⟩ := hA
            rcases hor with hn | he
            · exact absurd ⟨u, hu, hn⟩ hnodemo
            · exact ⟨u, hu, he⟩
          · intro uid s' heq
            rw [hres] at heq
            cases heq
      | some u =>
          have hres : _seed_demo_user t s
              = some (u.id, { s with users := s.users.map demoUpdate }) := by
            unfold _seed_demo_user
            rw [if_pos hb, if_neg hc]
            simp only [hf]
          have hdemo : ∃ v ∈ s.users, v.username = demoUsername := by
            have hmem := List.mem_of_find?_eq_some hf
            have hp := List.find?_some hf
            obtain ⟨v, hv, rfl⟩ := List.mem_map.mp hmem
            exact ⟨v, hv, by
              have := beq_iff_eq.mp hp
              rwa [demoUpdate_username] at this⟩
          constructor
          · rw [hres]
            constructor
            · intro h; cases h
            · intro hrhs
              exfalso
              rcases hrhs with ⟨hnod, _⟩ | ⟨hd, hconf⟩
              · exact hnod hdemo
              · exact hc ⟨hd, hconf⟩
          · intro uid s' heq
            rw [hres] at heq
            injection heq with heq2
            injection heq2 with h1 h2
            subst h1; subst h2
            refine ⟨by simp [if_pos hA], ?_, ?_⟩
            · refine ⟨u, List.mem_of_find?_eq_some hf, ?_, rfl⟩
              have hp := List.find?_some hf
              exact beq_iff_eq.mp hp
            · intro w hw hwname
              obtain ⟨v, hv, rfl⟩ := List.mem_map.mp hw
              exact demoUpdate_of_demo v (by rwa [demoUpdate_username] at hwname)
  · have hb : (s.users.any (fun u => u.username == demoUsername || u.email == demoEmail))
        = false := by
      rw [Bool.eq_false_iff]
      intro h
      apply hA
      simpa only [List.any_eq_true, Bool.or_eq_true, beq_iff_eq] using h
    have hnodemo : ∀ u ∈ s.users, u.username ≠ demoUsername :=
      fun u hu hn => hA ⟨u, hu, Or.inl hn⟩
    have hnoemail : ∀ u ∈ s.users, u.email ≠ demoEmail :=
      fun u hu he => hA ⟨u, hu, Or.inr he⟩
    have hfilnil : s.users.filter (fun u => u.username == demoUsername) = [] := by
      rw [List.filter_eq_nil_iff]
      intro u hu
      simp only [beq_iff_eq]
      exact hnodemo u hu
    have hc : ¬ demoUpdateConflict (s.users ++
        ([⟨s.next_user_id, demoUsername, demoEmail, some demoPasswordHash, demoFullName, 1, t⟩]
          : List UserRow)) := by
      rintro ⟨hd, hdisj⟩
      rcases hdisj with ⟨w, hw, hwne, hwe⟩ | hlen
      · rcases List.mem_append.mp hw with hws | hwn
        · exact hnoemail w hws hwe
        · have : w = (⟨s.next_user_id, demoUsername, demoEmail, some demoPasswordHash,
              demoFullName, 1, t⟩ : UserRow) := by simpa using hwn
          exact hwne (by rw [this])
      · rw [List.filter_append, hfilnil] at hlen
        simp at hlen
    cases hf : ((s.users ++
        ([⟨s.next_user_id, demoUsername, demoEmail, some demoPasswordHash, demoFullName, 1, t⟩]
          : List UserRow)).map
          demoUpdate).find? (fun (u : UserRow) => u.username == demoUsername) with
    | none =>
        exfalso
        have hmem : (⟨s.next_user_id, demoUsername, demoEmail, some demoPasswordHash,
            demoFullName, 1, t⟩ : UserRow) ∈ s.users ++
            ([⟨s.next_user_id, demoUsername, demoEmail, some demoPasswordHash,
              demoFullName, 1, t⟩] : List UserRow) := by simp
        have := List.find?_eq_none.mp hf _ (List.mem_map_of_mem demoUpdate hmem)
        simp [demoUpdate_username] at this
    | some u =>
        have hres : _seed_demo_user t s = some (u.id,
            { s with
              users := (s.users ++
                ([⟨s.next_user_id, demoUsername, demoEmail, some demoPasswordHash,
                  demoFullName, 1, t⟩] : List UserRow)).map demoUpdate,
              next_user_id := s.next_user_id + 1 }) := by
          unfold _seed_demo_user
          rw [hb]
          simp only [Bool.false_eq_true, if_false]
          rw [if_neg hc]
          simp only [hf]
        constructor
        · rw [hres]
          constructor
          · intro h; cases h
          · intro hrhs
            exfalso
            rcases hrhs with ⟨hnod, ⟨w, hw, hwe⟩⟩ | ⟨⟨w, hw, hwn⟩, _⟩
            · exact hnoemail w hw hwe
            · exact hnodemo w hw hwn
        · intro uid s' heq
          rw [hres] at heq
          injection heq with heq2
          injection heq2 with h1 h2
          subst h1; subst h2
          refine ⟨by simp [if_neg hA], ?_, ?_⟩
          · refine ⟨u, List.mem_of_find?_eq_some hf, ?_, rfl⟩
            have hp := List.find?_some hf
            exact beq_iff_eq.mp hp
          · intro w hw hwname
            obtain ⟨v, hv, rfl⟩ := List.mem_map.mp hw
            exact demoUpdate_of_demo v (by rwa [demoUpdate_username] at hwname)

/-- C6 (counterexample): with a single user `alice` already holding the
email `demo@example.com` and no `demo_user` row present, `_seed_demo_user`
does not insert the demo row (the claim says it inserts exactly when no
`demo_user`-named row exists) — instead the whole call fails. -/
theorem c6_demo_user_upsert_counterexample :
    (({ emptyDb with
        users := [⟨1, "alice", "demo@example.com", none, "Alice", 1, 0⟩],
        next_user_id := 2 } : Db).users.all (fun u => u.username != demoUsername)) = true
    ∧ _seed_demo_user 0 { emptyDb with
        users := [⟨1, "alice", "demo@example.com", none, "Alice", 1, 0⟩],
        next_user_id := 2 } = none := by
  decide

/-- Witness for C6 on the empty store: the insert happens and the new
row's id is returned. -/
theorem c6_demo_user_upsert_witness :
    ∃ p : Nat × Db, _seed_demo_user 0 emptyDb = some p
      ∧ p.2.users.length = emptyDb.users.length + 1
      ∧ ∃ u ∈ p.2.users, u.username = demoUsername ∧ u.id = p.1 := by
  have heq : _seed_demo_user 0 emptyDb
      = some ((_seed_demo_user 0 emptyDb).getD (0, emptyDb)) := by decide
  have h := (c6_demo_user_upsert 0 emptyDb).2 _ _ heq
  refine ⟨_, heq, ?_, h.2.1⟩
  exact h.1.trans (if_neg (by simp [emptyDb]))

/-- C8: when the connection-descriptor file or the database file is
missing, `main` triggers the schema+seed run (`_run_init_db`) at most once
per missing-artifact condition — at most one run triggered by the missing
connection file, at most one triggered by the missing database file, hence
at most two in total, and none beyond the first resolution when the
connection file was present — before giving up with a failure outcome.
The hypothesis states that a successful `init_db.py` run never deletes an
existing `db_connection.txt` (it only ever rewrites it). -/
theorem c8_bootstrap_retry_once (init : Checker.World → Option Checker.World) (w : Checker.World)
    (hmono : ∀ w1 w2, init w1 = some w2 → w1.conn_file.isSome = true →
        w2.conn_file.isSome = true) :
    (mainBootstrap init w).conn_triggered ≤ 1
    ∧ (mainBootstrap init w).db_triggered ≤ 1
    ∧ (mainBootstrap init w).init_calls ≤ 2
    ∧ (w.conn_file.isSome = true → (mainBootstrap init w).init_calls ≤ 1) := by
  -- characterize the first resolution step
  have hstep : ∀ w' : Checker.World, (getDbPathStep init w').2.1 ≤ 1
      ∧ (w'.conn_file.isSome = true → (getDbPathStep init w').2.1 = 0
          ∧ (getDbPathStep init w').1 = w')
      ∧ (∀ p, (getDbPathStep init w').2.2 = Except.ok p →
          (getDbPathStep init w').1.conn_file.isSome = true) := by
    intro w'
    cases hc : w'.conn_file with
    | some content =>
        refine ⟨?_, fun _ => ?_, fun p hp => ?_⟩
        · simp [getDbPathStep, hc]
        · constructor <;> simp [getDbPathStep, hc]
        · simp [getDbPathStep, hc]
    | none =>
        refine ⟨?_, fun hs => ?_, fun p hp => ?_⟩
        · cases hi : init w' with
          | none => simp [getDbPathStep, hc, hi]
          | some w2 =>
              cases hc2 : w2.conn_file with
              | none => simp [getDbPathStep, hc, hi, hc2]
              | some c2 => simp [getDbPathStep, hc, hi, hc2]
        · simp at hs
        · cases hi : init w' with
          | none => simp [getDbPathStep, hc, hi] at hp
          | some w2 =>
              cases hc2 : w2.conn_file with
              | none => simp [getDbPathStep, hc, hi, hc2] at hp
              | some c2 => simp [getDbPathStep, hc, hi, hc2]
  obtain ⟨h1le, h1some, h1ok⟩ := hstep w
  rcases hg : getDbPathStep init w with ⟨w1, c1, r1⟩
  rw [hg] at h1le h1some h1ok
  simp only at h1le h1some h1ok
  cases r1 with
  | error e =>
      simp only [mainBootstrap, hg]
      refine ⟨h1le, Nat.zero_le 1, le_trans h1le (by omega), fun hs => ?_⟩
      rw [(h1some hs).1]
      omega
  | ok p =>
      have hw1some : w1.conn_file.isSome = true := h1ok p rfl
      by_cases hin : p ∈ w1.db_files
      · simp only [mainBootstrap, hg, if_pos hin]
        refine ⟨h1le, Nat.zero_le 1, le_trans h1le (by omega), fun hs => ?_⟩
        rw [(h1some hs).1]
        omega
      · cases hi2 : init w1 with
        | none =>
            simp only [mainBootstrap, hg, if_neg hin, hi2]
            refine ⟨h1le, le_refl 1, by omega, fun hs => ?_⟩
            rw [(h1some hs).1]
        | some w2 =>
            have hw2some : w2.conn_file.isSome = true := hmono w1 w2 hi2 hw1some
            have hs2 := (hstep w2).2.1 hw2some
            rcases hg2 : getDbPathStep init w2 with ⟨w3, c2, r2⟩
            rw [hg2] at hs2
            simp only at hs2
            cases r2 with
            | error e =>
                simp only [mainBootstrap, hg, if_neg hin, hi2, hg2]
                refine ⟨?_, le_refl 1, ?_, fun hs => ?_⟩
                · rw [hs2.1]; simpa using h1le
                · rw [hs2.1]; omega
                · rw [(h1some hs).1, hs2.1]
            | ok p2 =>
                by_cases hin2 : p2 ∈ w3.db_files
                · simp only [mainBootstrap, hg, if_neg hin, hi2, hg2, if_pos hin2]
                  refine ⟨?_, le_refl 1, ?_, fun hs => ?_⟩
                  · rw [hs2.1]; simpa using h1le
                  · rw [hs2.1]; omega
                  · rw [(h1some hs).1, hs2.1]
                · simp only [mainBootstrap, hg, if_neg hin, hi2, hg2, if_neg hin2]
                  refine ⟨?_, le_refl 1, ?_, fun hs => ?_⟩
                  · rw [hs2.1]; simpa using h1le
                  · rw [hs2.1]; omega
                  · rw [(h1some hs).1, hs2.1]

/-- Witness for C8: a cold world (no connection file, no database) with an
init script that creates both. -/
theorem c8_bootstrap_retry_once_witness :
    (mainBootstrap (fun _ => some ⟨some (ConnFile.writeConnectionContent "/db"), ["/db"]⟩)
        ⟨none, []⟩).conn_triggered ≤ 1
    ∧ (mainBootstrap (fun _ => some ⟨some (ConnFile.writeConnectionContent "/db"), ["/db"]⟩)
        ⟨none, []⟩).db_triggered ≤ 1
    ∧ (mainBootstrap (fun _ => some ⟨some (ConnFile.writeConnectionContent "/db"), ["/db"]⟩)
        ⟨none, []⟩).init_calls ≤ 2 := by
  have h := c8_bootstrap_retry_once
    (fun _ => some ⟨some (ConnFile.writeConnectionContent "/db"), ["/db"]⟩)
    ⟨none, []⟩ (fun w1 w2 h _ => by cases h; rfl)
  exact ⟨h.1, h.2.1, h.2.2.1⟩

namespace StreamingDb

lemma runSteps_from_none (l : List (α → Option α)) :
    l.foldl (fun acc f => acc.bind f) none = none := by
  induction l with
  | nil => rfl
  | cons f fs ih => simpa using ih

lemma runSteps_append (l1 l2 : List (α → Option α)) (a : α) :
    runSteps (l1 ++ l2) a = (runSteps l1 a).bind (fun b => runSteps l2 b) := by
  rw [runSteps, List.foldl_append]
  cases h : runSteps l1 a with
  | none =>
      rw [runSteps] at h
      rw [h, Option.none_bind]
      exact runSteps_from_none l2
  | some b =>
      rw [runSteps] at h
      rw [h, Option.some_bind]
      rfl

end StreamingDb

/-- C3, amended: the six steps execute in the source order `schema,
app_info, user, categories, videos, watch_history` (third conjunct: the
pipeline is exactly that sequential composition), and the seeding DML is
one unit of work with a single commit at the very end: if the prefix of
steps up to any step `i` raises (`none`), no seeded row is persisted —
every table keeps its row counts — but the auto-committed schema DDL
survives, so the file holds exactly `_create_schema` of the original
store; only a fully successful run persists seeded rows. -/
theorem c3_single_commit_atomic (t : Nat) (s : Db) :
    (∀ i : Nat, runSteps ((initSteps t).take (i + 1)) (initRunState s) = none →
        commitRun t s = _create_schema s ∧ rowCounts (commitRun t s) = rowCounts s)
    ∧ (∀ d, initialize_database t s = some d → commitRun t s = d)
    ∧ initialize_database t s =
        ((((((stepSchema (initRunState s)).bind (stepAppInfo t)).bind
          (stepUser t)).bind (stepCategories t)).bind (stepVideos t)).bind
            (stepWatchHistory t)).map (fun rs => rs.db) := by
  refine ⟨fun i hfail => ?_, fun d h => ?_, ?_⟩
  · have hall : runSteps (initSteps t) (initRunState s) = none := by
      rw [← List.take_append_drop (i + 1) (initSteps t), runSteps_append, hfail,
        Option.none_bind]
    have hc : commitRun t s = _create_schema s := by
      unfold commitRun initialize_database
      rw [hall]
      rfl
    refine ⟨hc, ?_⟩
    rw [hc]
    rfl
  · unfold commitRun
    rw [h]
  · simp only [initialize_database, runSteps, initSteps, List.foldl_cons, List.foldl_nil,
      Option.some_bind]

/-- Counterexample for C3 as stated: on a store where user `alice` already
holds the demo email, the user step (the third step of the pipeline)
raises, and the run persists no row — but the schema DDL, auto-committed
before the first DML opened the transaction, survives: the file is not
left untouched, its previously empty table catalog now holds the six
tables.  "If any step raises then no change (neither schema DDL nor seeded
rows) is persisted" is false of the program. -/
theorem c3_single_commit_atomic_counterexample :
    runSteps ((initSteps 0).take 3) (initRunState { emptyDb with
        users := [⟨1, "alice", "demo@example.com", none, "Alice", 1, 0⟩],
        next_user_id := 2 }) = none
    ∧ commitRun 0 { emptyDb with
        users := [⟨1, "alice", "demo@example.com", none, "Alice", 1, 0⟩],
        next_user_id := 2 }
      ≠ { emptyDb with
          users := [⟨1, "alice", "demo@example.com", none, "Alice", 1, 0⟩],
          next_user_id := 2 }
    ∧ (commitRun 0 { emptyDb with
        users := [⟨1, "alice", "demo@example.com", none, "Alice", 1, 0⟩],
        next_user_id := 2 }).table_columns.length = 6 :=
  ⟨by decide, by decide, by decide⟩

/-- Witness for the amended C3 theorem at the same failing store: the
user step raises at prefix length 3, and the committed file is the
original store with the schema applied — the same row counts, no seeded
row. -/
theorem c3_single_commit_atomic_witness :
    commitRun 0 { emptyDb with
        users := [⟨1, "alice", "demo@example.com", none, "Alice", 1, 0⟩],
        next_user_id := 2 }
      = _create_schema { emptyDb with
          users := [⟨1, "alice", "demo@example.com", none, "Alice", 1, 0⟩],
          next_user_id := 2 }
    ∧ rowCounts (commitRun 0 { emptyDb with
        users := [⟨1, "alice", "demo@example.com", none, "Alice", 1, 0⟩],
        next_user_id := 2 })
      = rowCounts { emptyDb with
          users := [⟨1, "alice", "demo@example.com", none, "Alice", 1, 0⟩],
          next_user_id := 2 } :=
  (c3_single_commit_atomic 0 _).1 2 (by decide)
namespace StreamingDb

lemma any_createTable_self (n : String) (cols : List String)
    (tc : List (String × List String)) :
    (createTableIfNotExists n cols tc).any (fun e => e.1 == n) = true := by
  unfold createTableIfNotExists
  split
  · assumption
  · simp

lemma any_createTable_mono (n m : String) (cols : List String)
    (tc : List (String × List String)) (h : tc.any (fun e => e.1 == n) = true) :
    (createTableIfNotExists m cols tc).any (fun e => e.1 == n) = true := by
  unfold createTableIfNotExists
  split
  · exact h
  · simp only [List.any_append, h, Bool.true_or]

lemma map_ensure_any (tb col n : String) (tc : List (String × List String)) :
    (tc.map (fun e => if e.1 == tb then
        ((e.1, if col ∈ e.2 then e.2 else e.2 ++ [col]) : String × List String)
      else e)).any (fun e => e.1 == n) = tc.any (fun e => e.1 == n) := by
  induction tc with
  | nil => rfl
  | cons e es ih =>
      simp only [List.map_cons, List.any_cons, ih]
      by_cases he : (e.1 == tb) = true
      · simp [he]
      · simp [he]

lemma any_ensureCol (tb cd n : String) (tc : List (String × List String)) :
    (ensureColumnOnTc tb cd tc).any (fun e => e.1 == n) = tc.any (fun e => e.1 == n) :=
  map_ensure_any tb _ n tc

lemma createTable_stable (n : String) (cols : List String)
    (tc : List (String × List String)) (h : tc.any (fun e => e.1 == n) = true) :
    createTableIfNotExists n cols tc = tc := by
  unfold createTableIfNotExists
  rw [if_pos h]

lemma map_ensure_stable (tb col : String) (tc : List (String × List String))
    (h : ∀ e ∈ tc, e.1 = tb → col ∈ e.2) :
    tc.map (fun e => if e.1 == tb then
        ((e.1, if col ∈ e.2 then e.2 else e.2 ++ [col]) : String × List String)
      else e) = tc := by
  induction tc with
  | nil => rfl
  | cons e es ih =>
      simp only [List.map_cons]
      rw [ih (fun e' he' ht => h e' (List.mem_cons_of_mem e he') ht)]
      by_cases he : e.1 = tb
      · have hb : (e.1 == tb) = true := by simp [he]
        have hcol := h e (List.mem_cons_self e es) he
        rw [if_pos hb, if_pos hcol]
      · have hb : (e.1 == tb) = false := beq_eq_false_iff_ne.mpr he
        rw [if_neg (by simp [hb])]

lemma ensureCol_stable (tb cd : String) (tc : List (String × List String))
    (h : ∀ e ∈ tc, e.1 = tb →
      ((Str.splitOnChar ' ' cd).filter (fun w => w != "")).headD "" ∈ e.2) :
    ensureColumnOnTc tb cd tc = tc :=
  map_ensure_stable tb _ tc h

lemma map_ensure_post (tb col : String) (tc : List (String × List String)) :
    ∀ e ∈ tc.map (fun e => if e.1 == tb then
        ((e.1, if col ∈ e.2 then e.2 else e.2 ++ [col]) : String × List String)
      else e), e.1 = tb → col ∈ e.2 := by
  intro e he ht
  obtain ⟨e', he', rfl⟩ := List.mem_map.mp he
  by_cases hb : (e'.1 == tb) = true
  · rw [if_pos hb]
    rw [if_pos hb] at ht
    by_cases hc : col ∈ e'.2
    · simp [hc]
    · simp [hc]
  · rw [if_neg hb] at ht
    exact absurd (by simp [ht]) hb

lemma ensureCol_post (tb cd : String) (tc : List (String × List String)) :
    ∀ e ∈ ensureColumnOnTc tb cd tc, e.1 = tb →
      ((Str.splitOnChar ' ' cd).filter (fun w => w != "")).headD "" ∈ e.2 :=
  map_ensure_post tb _ tc

lemma map_ensure_mono_col (tb tb' col col' : String) (tc : List (String × List String))
    (h : ∀ e ∈ tc, e.1 = tb → col ∈ e.2) :
    ∀ e ∈ tc.map (fun e => if e.1 == tb' then
        ((e.1, if col' ∈ e.2 then e.2 else e.2 ++ [col']) : String × List String)
      else e), e.1 = tb → col ∈ e.2 := by
  intro e he ht
  obtain ⟨e', he', rfl⟩ := List.mem_map.mp he
  by_cases hb : (e'.1 == tb') = true
  · rw [if_pos hb]
    rw [if_pos hb] at ht
    have hcol := h e' he' ht
    by_cases hc : col' ∈ e'.2
    · simpa [hc] using hcol
    · simp only [if_neg hc]
      exact List.mem_append_left _ hcol
  · rw [if_neg hb] at ht ⊢
    exact h e' he' ht

lemma ensureCol_mono_col (tb tb' cd' col : String) (tc : List (String × List String))
    (h : ∀ e ∈ tc, e.1 = tb → col ∈ e.2) :
    ∀ e ∈ ensureColumnOnTc tb' cd' tc, e.1 = tb → col ∈ e.2 :=
  map_ensure_mono_col tb tb' col _ tc h

lemma createTable_mono_col (m tb col : String) (cols' : List String)
    (tc : List (String × List String)) (hm : m ≠ tb)
    (h : ∀ e ∈ tc, e.1 = tb → col ∈ e.2) :
    ∀ e ∈ createTableIfNotExists m cols' tc, e.1 = tb → col ∈ e.2 := by
  intro e he ht
  unfold createTableIfNotExists at he
  split at he
  · exact h e he ht
  · rcases List.mem_append.mp he with h' | h'
    · exact h e h' ht
    · have : e = (m, cols') := by simpa using h'
      rw [this] at ht
      exact absurd ht hm

lemma createIndex_self (n : String) (idx : List String) :
    n ∈ createIndexIfNotExists n idx := by
  unfold createIndexIfNotExists
  split
  · assumption
  · simp

lemma createIndex_mono (n m : String) (idx : List String) (h : n ∈ idx) :
    n ∈ createIndexIfNotExists m idx := by
  unfold createIndexIfNotExists
  split
  · exact h
  · exact List.mem_append_left _ h

lemma createIndex_stable (n : String) (idx : List String) (h : n ∈ idx) :
    createIndexIfNotExists n idx = idx := by
  unfold createIndexIfNotExists
  rw [if_pos h]

lemma schemaTables_has_app_info (tc : List (String × List String)) :
    (schemaTables tc).any (fun e => e.1 == "app_info") = true := by
  unfold schemaTables
  apply any_createTable_mono
  apply any_createTable_mono
  apply any_createTable_mono
  apply any_createTable_mono
  rw [any_ensureCol, any_ensureCol, any_ensureCol]
  apply any_createTable_mono
  exact any_createTable_self _ _ _

lemma schemaTables_has_users (tc : List (String × List String)) :
    (schemaTables tc).any (fun e => e.1 == "users") = true := by
  unfold schemaTables
  apply any_createTable_mono
  apply any_createTable_mono
  apply any_createTable_mono
  apply any_createTable_mono
  rw [any_ensureCol, any_ensureCol, any_ensureCol]
  exact any_createTable_self _ _ _

lemma schemaTables_has_categories (tc : List (String × List String)) :
    (schemaTables tc).any (fun e => e.1 == "categories") = true := by
  unfold schemaTables
  apply any_createTable_mono
  apply any_createTable_mono
  apply any_createTable_mono
  exact any_createTable_self _ _ _

lemma schemaTables_has_videos (tc : List (String × List String)) :
    (schemaTables tc).any (fun e => e.1 == "videos") = true := by
  unfold schemaTables
  apply any_createTable_mono
  apply any_createTable_mono
  exact any_createTable_self _ _ _

lemma schemaTables_has_video_categories (tc : List (String × List String)) :
    (schemaTables tc).any (fun e => e.1 == "video_categories") = true := by
  unfold schemaTables
  apply any_createTable_mono
  exact any_createTable_self _ _ _

lemma schemaTables_has_watch_history (tc : List (String × List String)) :
    (schemaTables tc).any (fun e => e.1 == "watch_history") = true := by
  unfold schemaTables
  exact any_createTable_self _ _ _

lemma schemaTables_users_cols (tc : List (String × List String)) :
    ∀ e ∈ schemaTables tc, e.1 = "users" →
      "password_hash" ∈ e.2 ∧ "full_name" ∈ e.2 ∧ "is_active" ∈ e.2 := by
  intro e he ht
  refine ⟨?_, ?_, ?_⟩
  · revert e he ht
    unfold schemaTables
    intro e he ht
    exact createTable_mono_col _ _ _ _ _ (by decide)
      (createTable_mono_col _ _ _ _ _ (by decide)
        (createTable_mono_col _ _ _ _ _ (by decide)
          (createTable_mono_col _ _ _ _ _ (by decide)
            (ensureCol_mono_col _ _ _ _ _
              (ensureCol_mono_col _ _ _ _ _
                (ensureCol_post _ _ _)))))) e he ht
  · revert e he ht
    unfold schemaTables
    intro e he ht
    exact createTable_mono_col _ _ _ _ _ (by decide)
      (createTable_mono_col _ _ _ _ _ (by decide)
        (createTable_mono_col _ _ _ _ _ (by decide)
          (createTable_mono_col _ _ _ _ _ (by decide)
            (ensureCol_mono_col _ _ _ _ _
              (ensureCol_post _ _ _))))) e he ht
  · revert e he ht
    unfold schemaTables
    intro e he ht
    exact createTable_mono_col _ _ _ _ _ (by decide)
      (createTable_mono_col _ _ _ _ _ (by decide)
        (createTable_mono_col _ _ _ _ _ (by decide)
          (createTable_mono_col _ _ _ _ _ (by decide)
            (ensureCol_post _ _ _)))) e he ht

lemma schemaTables_idem (tc : List (String × List String)) :
    schemaTables (schemaTables tc) = schemaTables tc := by
  conv_lhs => rw [schemaTables]
  rw [createTable_stable _ _ _ (schemaTables_has_app_info tc)]
  rw [createTable_stable _ _ _ (schemaTables_has_users tc)]
  rw [ensureCol_stable "users" "password_hash TEXT" _
    (fun e he ht => (schemaTables_users_cols tc e he ht).1)]
  rw [ensureCol_stable "users" "full_name TEXT" _
    (fun e he ht => (schemaTables_users_cols tc e he ht).2.1)]
  rw [ensureCol_stable "users" "is_active INTEGER NOT NULL DEFAULT 1" _
    (fun e he ht => (schemaTables_users_cols tc e he ht).2.2)]
  rw [createTable_stable _ _ _ (schemaTables_has_categories tc)]
  rw [createTable_stable _ _ _ (schemaTables_has_videos tc)]
  rw [createTable_stable _ _ _ (schemaTables_has_video_categories tc)]
  rw [createTable_stable _ _ _ (schemaTables_has_watch_history tc)]

lemma schemaIndexes_idem (idx : List String) :
    schemaIndexes (schemaIndexes idx) = schemaIndexes idx := by
  have h1 : "idx_videos_slug" ∈ schemaIndexes idx := by
    unfold schemaIndexes
    exact createIndex_mono _ _ _ (createIndex_mono _ _ _ (createIndex_self _ _))
  have h2 : "idx_watch_history_user_id" ∈ schemaIndexes idx := by
    unfold schemaIndexes
    exact createIndex_mono _ _ _ (createIndex_self _ _)
  have h3 : "idx_watch_history_video_id" ∈ schemaIndexes idx := by
    unfold schemaIndexes
    exact createIndex_self _ _
  conv_lhs => rw [schemaIndexes]
  rw [createIndex_stable _ _ h1, createIndex_stable _ _ h2, createIndex_stable _ _ h3]

end StreamingDb
namespace StreamingDb

lemma seed_app_info_shape (t : Nat) (entries : List (String × String)) :
    ∀ s : Db, ∃ ai n,
      entries.foldl (fun s kv => insertOrReplaceAppInfo kv.1 kv.2 t s) s
        = { s with app_info := ai, next_app_info_id := n } := by
  induction entries with
  | nil => intro s; exact ⟨s.app_info, s.next_app_info_id, rfl⟩
  | cons e es ih =>
      intro s
      obtain ⟨ai, n, h⟩ := ih (insertOrReplaceAppInfo e.1 e.2 t s)
      refine ⟨ai, n, ?_⟩
      rw [List.foldl_cons, h]
      rfl

lemma seed_demo_user_shape (t : Nat) (s : Db) (uid : Nat) (s' : Db)
    (h : _seed_demo_user t s = some (uid, s')) :
    ∃ us n, s' = { s with users := us, next_user_id := n } := by
  unfold _seed_demo_user at h
  by_cases h1 : (s.users.any (fun u => u.username == demoUsername || u.email == demoEmail))
      = true
  · rw [if_pos h1] at h
    by_cases h2 : demoUpdateConflict s.users
    · rw [if_pos h2] at h
      cases h
    · rw [if_neg h2] at h
      cases hfind : (s.users.map demoUpdate).find? (fun u => u.username == demoUsername) with
      | none => simp only [hfind] at h; cases h
      | some u =>
          simp only [hfind] at h
          injection h with h2
          have h3 := congrArg Prod.snd h2
          exact ⟨_, _, h3.symm⟩
  · rw [if_neg h1] at h
    by_cases h2 : demoUpdateConflict (s.users ++
        ([⟨s.next_user_id, demoUsername, demoEmail, some demoPasswordHash,
          demoFullName, 1, t⟩] : List UserRow))
    · rw [if_pos h2] at h
      cases h
    · rw [if_neg h2] at h
      cases hfind : ((s.users ++
          ([⟨s.next_user_id, demoUsername, demoEmail, some demoPasswordHash,
            demoFullName, 1, t⟩] : List UserRow)).map demoUpdate).find?
          (fun u => u.username == demoUsername) with
      | none => simp only [hfind] at h; cases h
      | some u =>
          simp only [hfind] at h
          injection h with h2
          have h3 := congrArg Prod.snd h2
          exact ⟨_, _, h3.symm⟩

lemma seed_categories_shape (t : Nat) (s : Db) :
    ∃ cs n, (_seed_categories t s).2 = { s with categories := cs, next_category_id := n } := by
  unfold _seed_categories
  show ∃ cs n, (categoriesSeed.foldl (fun s nd => insertOrIgnoreCategory nd.1 nd.2 t s) s)
      = _
  have haux : ∀ (l : List (String × String)) (s : Db), ∃ cs n,
      l.foldl (fun s nd => insertOrIgnoreCategory nd.1 nd.2 t s) s
        = { s with categories := cs, next_category_id := n } := by
    intro l
    induction l with
    | nil => intro s; exact ⟨s.categories, s.next_category_id, rfl⟩
    | cons e es ih =>
        intro s
        obtain ⟨cs, n, h⟩ := ih (insertOrIgnoreCategory e.1 e.2 t s)
        refine ⟨cs, n, ?_⟩
        rw [List.foldl_cons, h]
        unfold insertOrIgnoreCategory
        split <;> rfl
  exact haux categoriesSeed s

lemma insertVideoCats_shape (vid : Nat) (cats : List String)
    (cids : List (String × Nat)) :
    ∀ s : Db, ∃ vc,
      cats.foldl (fun s cat_name =>
        match dictGet cids cat_name with
        | none => s
        | some cat_id => insertOrIgnoreVideoCategory vid cat_id s) s
      = { s with video_categories := vc } := by
  induction cats with
  | nil => intro s; exact ⟨s.video_categories, rfl⟩
  | cons c cs ih =>
      intro s
      rw [List.foldl_cons]
      cases hlk : dictGet cids c with
      | none =>
          simp only [hlk]
          exact ih s
      | some cid =>
          simp only [hlk]
          obtain ⟨vc, h⟩ := ih (insertOrIgnoreVideoCategory vid cid s)
          refine ⟨vc, ?_⟩
          rw [h]
          unfold insertOrIgnoreVideoCategory
          split <;> rfl

lemma seedOneVideo_shape (t : Nat) (cids : List (String × Nat)) (s : Db)
    (v : VideoSeed) (s' : Db) (h : seedOneVideo t cids s v = some s') :
    ∃ vs vc n, s' =
      { s with videos := vs, video_categories := vc, next_video_id := n } := by
  unfold seedOneVideo at h
  cases hfind : (insertOrIgnoreVideo v t s).videos.find? (fun r => r.slug == v.slug) with
  | none => simp only [hfind] at h; cases h
  | some row =>
      simp only [hfind] at h
      injection h with h2
      obtain ⟨vc, hvc⟩ :=
        insertVideoCats_shape row.id v.categories cids (insertOrIgnoreVideo v t s)
      rw [hvc] at h2
      refine ⟨(insertOrIgnoreVideo v t s).videos, vc,
        (insertOrIgnoreVideo v t s).next_video_id, ?_⟩
      rw [← h2]
      unfold insertOrIgnoreVideo
      split <;> rfl

lemma seedVideosFold_shape (t : Nat) (cids : List (String × Nat)) :
    ∀ (l : List VideoSeed) (s s' : Db),
      l.foldlM (seedOneVideo t cids) s = some s' →
      ∃ vs vc n, s' =
        { s with videos := vs, video_categories := vc, next_video_id := n } := by
  intro l
  induction l with
  | nil =>
      intro s s' h
      injection h with h2
      exact ⟨s.videos, s.video_categories, s.next_video_id, h2.symm⟩
  | cons v vrest ih =>
      intro s s' h
      rw [List.foldlM_cons] at h
      cases h1 : seedOneVideo t cids s v with
      | none => rw [h1] at h; cases h
      | some s1 =>
          rw [h1] at h
          have h' : vrest.foldlM (seedOneVideo t cids) s1 = some s' := h
          obtain ⟨vs2, vc2, n2, h2⟩ := ih s1 s' h'
          obtain ⟨vs1, vc1, n1, h3⟩ := seedOneVideo_shape t cids s v s1 h1
          subst h3
          exact ⟨vs2, vc2, n2, h2.trans (by rfl)⟩

lemma watch_fold_shape (t duid : Nat) (vids : List (String × Nat)) :
    ∀ (l : List (String × Nat × Nat)) (s : Db), ∃ wh n,
      l.foldl (watchStep t duid vids) s
        = { s with watch_history := wh, next_watch_history_id := n } := by
  intro l
  induction l with
  | nil => intro s; exact ⟨s.watch_history, s.next_watch_history_id, rfl⟩
  | cons e es ih =>
      intro s
      obtain ⟨wh, n, h⟩ := ih (watchStep t duid vids s e)
      refine ⟨wh, n, ?_⟩
      rw [List.foldl_cons, h]
      cases hlk : dictGet vids e.1 with
      | none => simp only [watchStep, hlk]
      | some vid => simp only [watchStep, hlk]; rfl

end StreamingDb
namespace StreamingDb

lemma length_filter_not {α : Type} (p : α → Bool) (l : List α) :
    (l.filter p).length + (l.filter (fun x => !(p x))).length = l.length := by
  induction l with
  | nil => rfl
  | cons a as ih =>
      by_cases h : p a = true
      · simp only [List.filter_cons, h, Bool.not_true, Bool.false_eq_true, if_true, if_false,
          List.length_cons]
        omega
      · have h' : p a = false := Bool.eq_false_iff.mpr h
        simp only [List.filter_cons, h', Bool.not_false, Bool.false_eq_true, if_true, if_false,
          List.length_cons]
        omega

lemma find?_append_some {α : Type} (p : α → Bool) (l l' : List α) (r : α)
    (h : l.find? p = some r) : (l ++ l').find? p = some r := by
  induction l with
  | nil => cases h
  | cons a as ih =>
      rw [List.cons_append]
      cases hp : p a with
      | true =>
          rw [List.find?_cons_of_pos _ hp] at h
          rw [List.find?_cons_of_pos _ hp]
          exact h
      | false =>
          rw [List.find?_cons_of_neg _ (by simp [hp])] at h
          rw [List.find?_cons_of_neg _ (by simp [hp])]
          exact ih h

lemma any_of_find? {α : Type} (p : α → Bool) (l : List α) (r : α)
    (h : l.find? p = some r) : l.any p = true :=
  List.any_eq_true.mpr ⟨r, List.mem_of_find?_eq_some h, List.find?_some h⟩

lemma seed_app_info_length_stable (t : Nat) :
    ∀ (entries : List (String × String)) (s : Db),
      (∀ kv ∈ entries, ((s.app_info.filter (fun r => r.key == kv.1)).length = 1)) →
      (entries.foldl (fun s kv => insertOrReplaceAppInfo kv.1 kv.2 t s) s).app_info.length
        = s.app_info.length := by
  intro entries
  induction entries with
  | nil => intro s _; rfl
  | cons e es ih =>
      intro s h
      rw [List.foldl_cons]
      have hcnt : ((s.app_info.filter (fun r => r.key == e.1)).length = 1) :=
        h e (List.mem_cons_self e es)
      have hlen : (insertOrReplaceAppInfo e.1 e.2 t s).app_info.length
          = s.app_info.length := by
        show ((s.app_info.filter (fun r : AppInfoRow => !(r.key == e.1)) ++
          ([⟨s.next_app_info_id, e.1, e.2, t⟩] : List AppInfoRow)).length) = s.app_info.length
        rw [List.length_append]
        have hsplit := length_filter_not (fun r : AppInfoRow => r.key == e.1) s.app_info
        rw [hcnt] at hsplit
        simp only [List.length_cons, List.length_nil]
        omega
      have htail : ∀ kv ∈ es, (((insertOrReplaceAppInfo e.1 e.2 t s).app_info.filter
          (fun r => r.key == kv.1)).length = 1) := by
        intro kv hkv
        by_cases hk : kv.1 = e.1
        · rw [hk, filter_key_replace_self]; rfl
        · rw [filter_key_replace_ne e.1 kv.1 e.2 t s hk]
          exact h kv (List.mem_cons_of_mem e hkv)
      rw [ih _ htail, hlen]

lemma demoUpdate_idem (u : UserRow) : demoUpdate (demoUpdate u) = demoUpdate u := by
  unfold demoUpdate
  by_cases h : (u.username == demoUsername) = true
  · rw [if_pos h, if_pos h]
  · rw [if_neg h, if_neg h]

lemma demoUpdate_of_ne (u : UserRow) (h : u.username ≠ demoUsername) :
    demoUpdate u = u := by
  unfold demoUpdate
  rw [if_neg (by simpa using h)]

lemma map_demoUpdate_idem (l : List UserRow) :
    (l.map demoUpdate).map demoUpdate = l.map demoUpdate := by
  rw [List.map_map]
  have h : demoUpdate ∘ demoUpdate = demoUpdate := funext demoUpdate_idem
  rw [h]

lemma length_filter_map_username (l : List UserRow) :
    ((l.map demoUpdate).filter (fun u => u.username == demoUsername)).length
      = (l.filter (fun u => u.username == demoUsername)).length := by
  induction l with
  | nil => rfl
  | cons a as ih =>
      by_cases h : (a.username == demoUsername) = true
      · simp only [List.map_cons, List.filter_cons, demoUpdate_username, h, if_true,
          List.length_cons, ih]
      · have h' : (a.username == demoUsername) = false := Bool.eq_false_iff.mpr h
        simp only [List.map_cons, List.filter_cons, demoUpdate_username, h',
          Bool.false_eq_true, if_false, ih]

lemma demoUpdateConflict_map (l : List UserRow) :
    demoUpdateConflict (l.map demoUpdate) → demoUpdateConflict l := by
  intro h
  obtain ⟨⟨u, hu, hname⟩, hrest⟩ := h
  obtain ⟨w, hw, hwu⟩ := List.mem_map.mp hu
  constructor
  · refine ⟨w, hw, ?_⟩
    rw [← demoUpdate_username w, hwu]
    exact hname
  · rcases hrest with ⟨u', hu', hne, hemail⟩ | hcount
    · obtain ⟨w', hw', hwu'⟩ := List.mem_map.mp hu'
      have hwname : w'.username = u'.username := by rw [← hwu', demoUpdate_username]
      left
      refine ⟨w', hw', ?_, ?_⟩
      · rw [hwname]; exact hne
      · have hfix : demoUpdate w' = w' := demoUpdate_of_ne w' (by rw [hwname]; exact hne)
        rw [← hfix, hwu']
        exact hemail
    · right
      rw [length_filter_map_username] at hcount
      exact hcount

lemma seed_demo_user_post (t : Nat) (s : Db) (uid : Nat) (s' : Db)
    (h : _seed_demo_user t s = some (uid, s')) :
    (∃ urow, s'.users.find? (fun u => u.username == demoUsername) = some urow
      ∧ uid = urow.id)
    ∧ s'.users.map demoUpdate = s'.users
    ∧ ¬ demoUpdateConflict s'.users := by
  unfold _seed_demo_user at h
  by_cases h1 : (s.users.any (fun u => u.username == demoUsername || u.email == demoEmail))
      = true
  · rw [if_pos h1] at h
    by_cases h2 : demoUpdateConflict s.users
    · rw [if_pos h2] at h
      cases h
    · rw [if_neg h2] at h
      cases hfind : (s.users.map demoUpdate).find? (fun u => u.username == demoUsername) with
      | none => simp only [hfind] at h; cases h
      | some u =>
          simp only [hfind] at h
          injection h with h3
          injection h3 with hid hst
          subst hst
          refine ⟨⟨u, ?_, hid.symm⟩, ?_, ?_⟩
          · exact hfind
          · exact map_demoUpdate_idem s.users
          · exact fun hc => h2 (demoUpdateConflict_map _ hc)
  · rw [if_neg h1] at h
    by_cases h2 : demoUpdateConflict ((s.users ++
        ([⟨s.next_user_id, demoUsername, demoEmail, some demoPasswordHash,
          demoFullName, 1, t⟩] : List UserRow)))
    · rw [if_pos h2] at h
      cases h
    · rw [if_neg h2] at h
      cases hfind : ((s.users ++
          ([⟨s.next_user_id, demoUsername, demoEmail, some demoPasswordHash,
            demoFullName, 1, t⟩] : List UserRow)).map demoUpdate).find?
          (fun u => u.username == demoUsername) with
      | none => simp only [hfind] at h; cases h
      | some u =>
          simp only [hfind] at h
          injection h with h3
          injection h3 with hid hst
          subst hst
          refine ⟨⟨u, ?_, hid.symm⟩, ?_, ?_⟩
          · exact hfind
          · exact map_demoUpdate_idem _
          · exact fun hc => h2 (demoUpdateConflict_map _ hc)

end StreamingDb
namespace StreamingDb

lemma cat_any_mono (n d : String) (t : Nat) (s : Db) (p : CategoryRow → Bool)
    (h : s.categories.any p = true) :
    (insertOrIgnoreCategory n d t s).categories.any p = true := by
  unfold insertOrIgnoreCategory
  by_cases hc : (s.categories.any (fun c => c.name == n)) = true
  · rw [if_pos hc]; exact h
  · rw [if_neg hc]
    show (s.categories ++ ([⟨s.next_category_id, n, d, t⟩] : List CategoryRow)).any p = true
    rw [List.any_append, h]
    rfl

lemma cat_insert_post (n d : String) (t : Nat) (s : Db) :
    (insertOrIgnoreCategory n d t s).categories.any (fun c => c.name == n) = true := by
  unfold insertOrIgnoreCategory
  by_cases hc : (s.categories.any (fun c => c.name == n)) = true
  · rw [if_pos hc]; exact hc
  · rw [if_neg hc]
    show (s.categories ++ ([⟨s.next_category_id, n, d, t⟩] : List CategoryRow)).any
      (fun c => c.name == n) = true
    simp [List.any_append]

lemma cat_fold_mono (l : List (String × String)) (t : Nat) (p : CategoryRow → Bool) :
    ∀ s : Db, s.categories.any p = true →
      (l.foldl (fun s nd => insertOrIgnoreCategory nd.1 nd.2 t s) s).categories.any p
        = true := by
  induction l with
  | nil => intro s h; exact h
  | cons e es ih =>
      intro s h
      rw [List.foldl_cons]
      exact ih _ (cat_any_mono e.1 e.2 t s p h)

lemma cat_fold_post (l : List (String × String)) (t : Nat) :
    ∀ s : Db, ∀ nd ∈ l,
      (l.foldl (fun s nd => insertOrIgnoreCategory nd.1 nd.2 t s) s).categories.any
        (fun c => c.name == nd.1) = true := by
  induction l with
  | nil => intro s nd h; cases h
  | cons e es ih =>
      intro s nd hmem
      rw [List.foldl_cons]
      rcases List.mem_cons.mp hmem with he | hes
      · subst he
        exact cat_fold_mono es t _ _ (cat_insert_post nd.1 nd.2 t s)
      · exact ih _ nd hes

lemma cat_fold_noop (l : List (String × String)) (t : Nat) :
    ∀ s : Db, (∀ nd ∈ l, s.categories.any (fun c => c.name == nd.1) = true) →
      l.foldl (fun s nd => insertOrIgnoreCategory nd.1 nd.2 t s) s = s := by
  induction l with
  | nil => intro s _; rfl
  | cons e es ih =>
      intro s h
      rw [List.foldl_cons]
      have he : insertOrIgnoreCategory e.1 e.2 t s = s := by
        unfold insertOrIgnoreCategory
        rw [if_pos (h e (List.mem_cons_self e es))]
      rw [he]
      exact ih s (fun nd hnd => h nd (List.mem_cons_of_mem e hnd))

lemma vc_any_mono (vid cid : Nat) (s : Db) (p : VideoCategoryRow → Bool)
    (h : s.video_categories.any p = true) :
    (insertOrIgnoreVideoCategory vid cid s).video_categories.any p = true := by
  unfold insertOrIgnoreVideoCategory
  by_cases hc : (s.video_categories.any
      (fun r => r.video_id == vid && r.category_id == cid)) = true
  · rw [if_pos hc]; exact h
  · rw [if_neg hc]
    show (s.video_categories ++ ([⟨vid, cid⟩] : List VideoCategoryRow)).any p = true
    rw [List.any_append, h]
    rfl

lemma vc_insert_post (vid cid : Nat) (s : Db) :
    (insertOrIgnoreVideoCategory vid cid s).video_categories.any
      (fun r => r.video_id == vid && r.category_id == cid) = true := by
  unfold insertOrIgnoreVideoCategory
  by_cases hc : (s.video_categories.any
      (fun r => r.video_id == vid && r.category_id == cid)) = true
  · rw [if_pos hc]; exact hc
  · rw [if_neg hc]
    show (s.video_categories ++ ([⟨vid, cid⟩] : List VideoCategoryRow)).any
      (fun r => r.video_id == vid && r.category_id == cid) = true
    simp [List.any_append]

lemma catsFold_any_mono (vid : Nat) (cids : List (String × Nat))
    (p : VideoCategoryRow → Bool) :
    ∀ (cats : List String) (s : Db), s.video_categories.any p = true →
      (cats.foldl (fun s cat_name =>
        match dictGet cids cat_name with
        | none => s
        | some cat_id => insertOrIgnoreVideoCategory vid cat_id s) s).video_categories.any p
        = true := by
  intro cats
  induction cats with
  | nil => intro s h; exact h
  | cons c cs ih =>
      intro s h
      rw [List.foldl_cons]
      cases hlk : dictGet cids c with
      | none => simp only [hlk]; exact ih s h
      | some cid => simp only [hlk]; exact ih _ (vc_any_mono vid cid s p h)

lemma catsFold_post (vid : Nat) (cids : List (String × Nat)) :
    ∀ (cats : List String) (s : Db), ∀ cn ∈ cats, ∀ cid, dictGet cids cn = some cid →
      (cats.foldl (fun s cat_name =>
        match dictGet cids cat_name with
        | none => s
        | some cat_id => insertOrIgnoreVideoCategory vid cat_id s) s).video_categories.any
        (fun r => r.video_id == vid && r.category_id == cid) = true := by
  intro cats
  induction cats with
  | nil => intro s cn h; cases h
  | cons c cs ih =>
      intro s cn hmem cid hcid
      rw [List.foldl_cons]
      rcases List.mem_cons.mp hmem with he | hes
      · subst he
        simp only [hcid]
        exact catsFold_any_mono vid cids _ cs _ (vc_insert_post vid cid s)
      · cases hlk : dictGet cids c with
        | none => simp only [hlk]; exact ih s cn hes cid hcid
        | some cid2 => simp only [hlk]; exact ih _ cn hes cid hcid

lemma catsFold_noop (vid : Nat) (cids : List (String × Nat)) :
    ∀ (cats : List String) (s : Db),
      (∀ cn ∈ cats, ∀ cid, dictGet cids cn = some cid →
        s.video_categories.any (fun r => r.video_id == vid && r.category_id == cid) = true) →
      cats.foldl (fun s cat_name =>
        match dictGet cids cat_name with
        | none => s
        | some cat_id => insertOrIgnoreVideoCategory vid cat_id s) s = s := by
  intro cats
  induction cats with
  | nil => intro s _; rfl
  | cons c cs ih =>
      intro s h
      rw [List.foldl_cons]
      cases hlk : dictGet cids c with
      | none =>
          simp only [hlk]
          exact ih s (fun cn hcn => h cn (List.mem_cons_of_mem c hcn))
      | some cid =>
          simp only [hlk]
          have hins : insertOrIgnoreVideoCategory vid cid s = s := by
            unfold insertOrIgnoreVideoCategory
            rw [if_pos (h c (List.mem_cons_self c cs) cid hlk)]
          rw [hins]
          exact ih s (fun cn hcn => h cn (List.mem_cons_of_mem c hcn))

lemma insertOrIgnoreVideo_suffix (v : VideoSeed) (t : Nat) (s : Db) :
    ∃ tl, (insertOrIgnoreVideo v t s).videos = s.videos ++ tl := by
  unfold insertOrIgnoreVideo
  by_cases hc : (s.videos.any (fun r => r.slug == v.slug)) = true
  · rw [if_pos hc]
    exact ⟨[], (List.append_nil _).symm⟩
  · rw [if_neg hc]
    exact ⟨_, rfl⟩

lemma catsFold_vc_suffix (vid : Nat) (cids : List (String × Nat)) :
    ∀ (cats : List String) (s : Db), ∃ tl,
      (cats.foldl (fun s cat_name =>
        match dictGet cids cat_name with
        | none => s
        | some cat_id => insertOrIgnoreVideoCategory vid cat_id s) s).video_categories
        = s.video_categories ++ tl := by
  intro cats
  induction cats with
  | nil => intro s; exact ⟨[], (List.append_nil _).symm⟩
  | cons c cs ih =>
      intro s
      rw [List.foldl_cons]
      cases hlk : dictGet cids c with
      | none => simp only [hlk]; exact ih s
      | some cid =>
          simp only [hlk]
          obtain ⟨tl, h⟩ := ih (insertOrIgnoreVideoCategory vid cid s)
          rw [h]
          unfold insertOrIgnoreVideoCategory
          by_cases hc : (s.video_categories.any
              (fun r => r.video_id == vid && r.category_id == cid)) = true
          · rw [if_pos hc]
            exact ⟨tl, rfl⟩
          · rw [if_neg hc]
            refine ⟨([⟨vid, cid⟩] : List VideoCategoryRow) ++ tl, ?_⟩
            show s.video_categories ++ ([⟨vid, cid⟩] : List VideoCategoryRow) ++ tl = _
            rw [List.append_assoc]

lemma seedOneVideo_post (t : Nat) (m : List (String × Nat)) (s : Db) (v : VideoSeed)
    (s' : Db) (h : seedOneVideo t m s v = some s') :
    (∃ tlv, s'.videos = s.videos ++ tlv)
    ∧ (∃ tlc, s'.video_categories = s.video_categories ++ tlc)
    ∧ ∃ row, s'.videos.find? (fun r => r.slug == v.slug) = some row
        ∧ ∀ cn ∈ v.categories, ∀ cid, dictGet m cn = some cid →
            s'.video_categories.any
              (fun r => r.video_id == row.id && r.category_id == cid) = true := by
  unfold seedOneVideo at h
  cases hfind : (insertOrIgnoreVideo v t s).videos.find? (fun r => r.slug == v.slug) with
  | none => simp only [hfind] at h; cases h
  | some row =>
      simp only [hfind] at h
      injection h with h2
      subst h2
      obtain ⟨vcshape, hvc⟩ :=
        insertVideoCats_shape row.id v.categories m (insertOrIgnoreVideo v t s)
      refine ⟨?_, ?_, row, ?_, ?_⟩
      · rw [hvc]
        obtain ⟨tl, htl⟩ := insertOrIgnoreVideo_suffix v t s
        exact ⟨tl, htl⟩
      · obtain ⟨tl, htl⟩ :=
          catsFold_vc_suffix row.id m v.categories (insertOrIgnoreVideo v t s)
        refine ⟨tl, ?_⟩
        rw [htl]
        show (insertOrIgnoreVideo v t s).video_categories ++ tl
          = s.video_categories ++ tl
        have hsame : (insertOrIgnoreVideo v t s).video_categories = s.video_categories := by
          unfold insertOrIgnoreVideo
          by_cases hc : (s.videos.any (fun r => r.slug == v.slug)) = true
          · rw [if_pos hc]
          · rw [if_neg hc]
        rw [hsame]
      · rw [hvc]
        exact hfind
      · intro cn hcn cid hcid
        exact catsFold_post row.id m v.categories (insertOrIgnoreVideo v t s) cn hcn cid hcid

lemma seedVideosFold_suffix (t : Nat) (m : List (String × Nat)) :
    ∀ (l : List VideoSeed) (s s' : Db),
      l.foldlM (seedOneVideo t m) s = some s' →
      (∃ tlv, s'.videos = s.videos ++ tlv)
      ∧ (∃ tlc, s'.video_categories = s.video_categories ++ tlc) := by
  intro l
  induction l with
  | nil =>
      intro s s' h
      injection h with h2
      subst h2
      exact ⟨⟨[], (List.append_nil _).symm⟩, ⟨[], (List.append_nil _).symm⟩⟩
  | cons w ws ih =>
      intro s s' h
      rw [List.foldlM_cons] at h
      cases h1 : seedOneVideo t m s w with
      | none => rw [h1] at h; cases h
      | some s1 =>
          rw [h1] at h
          have h' : ws.foldlM (seedOneVideo t m) s1 = some s' := h
          obtain ⟨⟨tv2, hv2⟩, ⟨tc2, hc2⟩⟩ := ih s1 s' h'
          obtain ⟨⟨tv1, hv1⟩, ⟨tc1, hc1⟩, _⟩ := seedOneVideo_post t m s w s1 h1
          exact ⟨⟨tv1 ++ tv2, by rw [hv2, hv1, List.append_assoc]⟩,
                 ⟨tc1 ++ tc2, by rw [hc2, hc1, List.append_assoc]⟩⟩

lemma seedVideosFold_post (t : Nat) (m : List (String × Nat)) :
    ∀ (l : List VideoSeed) (s s' : Db),
      l.foldlM (seedOneVideo t m) s = some s' →
      ∀ v ∈ l, ∃ row, s'.videos.find? (fun r => r.slug == v.slug) = some row
        ∧ ∀ cn ∈ v.categories, ∀ cid, dictGet m cn = some cid →
            s'.video_categories.any
              (fun r => r.video_id == row.id && r.category_id == cid) = true := by
  intro l
  induction l with
  | nil => intro s s' _ v hv; cases hv
  | cons w ws ih =>
      intro s s' h v hv
      rw [List.foldlM_cons] at h
      cases h1 : seedOneVideo t m s w with
      | none => rw [h1] at h; cases h
      | some s1 =>
          rw [h1] at h
          have h' : ws.foldlM (seedOneVideo t m) s1 = some s' := h
          rcases List.mem_cons.mp hv with he | hes
          · subst he
            obtain ⟨_, _, row, hfind, hpairs⟩ := seedOneVideo_post t m s v s1 h1
            obtain ⟨⟨tlv, htlv⟩, ⟨tlc, htlc⟩⟩ := seedVideosFold_suffix t m ws s1 s' h'
            refine ⟨row, ?_, ?_⟩
            · rw [htlv]
              exact find?_append_some _ _ _ _ hfind
            · intro cn hcn cid hcid
              rw [htlc, List.any_append, hpairs cn hcn cid hcid]
              rfl
          · exact ih s1 s' h' v hes

lemma seed_videos_post (t : Nat) (m : List (String × Nat)) (s : Db)
    (vm : List (String × Nat)) (s' : Db)
    (h : _seed_videos t m s = some (vm, s')) :
    videosSeed.foldlM (seedOneVideo t m) s = some s'
    ∧ vm = s'.videos.map (fun r => (r.slug, r.id)) := by
  unfold _seed_videos at h
  cases hf : videosSeed.foldlM (seedOneVideo t m) s with
  | none => rw [hf] at h; cases h
  | some s1 =>
      rw [hf] at h
      have h' : some (s1.videos.map (fun r => (r.slug, r.id)), s1) = some (vm, s') := h
      injection h' with h2
      injection h2 with hm hs
      subst hs
      exact ⟨rfl, hm.symm⟩

lemma seedOneVideo_noop (t : Nat) (m : List (String × Nat)) (s : Db) (v : VideoSeed)
    (row : VideoRow)
    (hfind : s.videos.find? (fun r => r.slug == v.slug) = some row)
    (hpairs : ∀ cn ∈ v.categories, ∀ cid, dictGet m cn = some cid →
      s.video_categories.any (fun r => r.video_id == row.id && r.category_id == cid) = true) :
    seedOneVideo t m s v = some s := by
  have hins : insertOrIgnoreVideo v t s = s := by
    unfold insertOrIgnoreVideo
    rw [if_pos (any_of_find? _ _ _ hfind)]
  unfold seedOneVideo
  simp only [hins, hfind]
  rw [catsFold_noop row.id m v.categories s hpairs]

lemma videosFold_noop (t : Nat) (m : List (String × Nat)) :
    ∀ (l : List VideoSeed) (s : Db),
      (∀ v ∈ l, ∃ row, s.videos.find? (fun r => r.slug == v.slug) = some row
        ∧ ∀ cn ∈ v.categories, ∀ cid, dictGet m cn = some cid →
            s.video_categories.any
              (fun r => r.video_id == row.id && r.category_id == cid) = true) →
      l.foldlM (seedOneVideo t m) s = some s := by
  intro l
  induction l with
  | nil => intro s _; rfl
  | cons w ws ih =>
      intro s h
      rw [List.foldlM_cons]
      obtain ⟨row, hfind, hpairs⟩ := h w (List.mem_cons_self w ws)
      rw [seedOneVideo_noop t m s w row hfind hpairs]
      show ws.foldlM (seedOneVideo t m) s = some s
      exact ih s (fun v hv => h v (List.mem_cons_of_mem w hv))

end StreamingDb
namespace StreamingDb

lemma wh_fold_keep_one (t uid vid : Nat) (vids : List (String × Nat)) :
    ∀ (samples : List (String × Nat × Nat)) (s : Db),
      (s.watch_history.filter (fun r => r.user_id == uid && r.video_id == vid)).length = 1 →
      ((samples.foldl (watchStep t uid vids) s).watch_history.filter
        (fun r => r.user_id == uid && r.video_id == vid)).length = 1 := by
  intro samples
  induction samples with
  | nil => intro s h; exact h
  | cons e es ih =>
      intro s h
      rw [List.foldl_cons]
      refine ih _ ?_
      cases hlk : dictGet vids e.1 with
      | none => simp only [watchStep, hlk]; exact h
      | some vid2 =>
          simp only [watchStep, hlk]
          by_cases hv : vid2 = vid
          · subst hv
            rw [filter_pair_replace_self]
            rfl
          · rw [filter_pair_replace_ne uid vid uid vid2 e.2.1 e.2.2 t s
              (fun hc => hv hc.2.symm)]
            exact h

lemma wh_fold_post (t uid : Nat) (vids : List (String × Nat)) :
    ∀ (samples : List (String × Nat × Nat)) (s : Db), ∀ smp ∈ samples, ∀ vid,
      dictGet vids smp.1 = some vid →
      ((samples.foldl (watchStep t uid vids) s).watch_history.filter
        (fun r => r.user_id == uid && r.video_id == vid)).length = 1 := by
  intro samples
  induction samples with
  | nil => intro s smp h; cases h
  | cons e es ih =>
      intro s smp hmem vid hvid
      rw [List.foldl_cons]
      rcases List.mem_cons.mp hmem with he | hes
      · subst he
        refine wh_fold_keep_one t uid vid vids es _ ?_
        simp only [watchStep, hvid]
        rw [filter_pair_replace_self]
        rfl
      · exact ih _ smp hes vid hvid

lemma wh_fold_length_stable (t uid : Nat) (vids : List (String × Nat)) :
    ∀ (samples : List (String × Nat × Nat)) (s : Db),
      (∀ smp ∈ samples, ∀ vid, dictGet vids smp.1 = some vid →
        (s.watch_history.filter (fun r => r.user_id == uid && r.video_id == vid)).length
          = 1) →
      (samples.foldl (watchStep t uid vids) s).watch_history.length
        = s.watch_history.length := by
  intro samples
  induction samples with
  | nil => intro s _; rfl
  | cons e es ih =>
      intro s h
      rw [List.foldl_cons]
      cases hlk : dictGet vids e.1 with
      | none =>
          have hstep : watchStep t uid vids s e = s := by simp only [watchStep, hlk]
          rw [hstep]
          exact ih s (fun smp hsmp => h smp (List.mem_cons_of_mem e hsmp))
      | some vid =>
          have hcnt : (s.watch_history.filter
              (fun r => r.user_id == uid && r.video_id == vid)).length = 1 :=
            h e (List.mem_cons_self e es) vid hlk
          have hstep : watchStep t uid vids s e
              = insertOrReplaceWatchHistory uid vid e.2.1 e.2.2 t s := by
            simp only [watchStep, hlk]
          rw [hstep]
          have hlen : (insertOrReplaceWatchHistory uid vid e.2.1 e.2.2 t s).watch_history.length
              = s.watch_history.length := by
            show ((s.watch_history.filter
              (fun r : WatchHistoryRow => !(r.user_id == uid && r.video_id == vid)) ++
              ([⟨s.next_watch_history_id, uid, vid, e.2.1, e.2.2, t⟩] :
                List WatchHistoryRow)).length) = s.watch_history.length
            rw [List.length_append]
            have hsplit := length_filter_not
              (fun r : WatchHistoryRow => r.user_id == uid && r.video_id == vid)
              s.watch_history
            rw [hcnt] at hsplit
            simp only [List.length_cons, List.length_nil]
            omega
          have htail : ∀ smp ∈ es, ∀ vid2, dictGet vids smp.1 = some vid2 →
              ((insertOrReplaceWatchHistory uid vid e.2.1 e.2.2 t s).watch_history.filter
                (fun r => r.user_id == uid && r.video_id == vid2)).length = 1 := by
            intro smp hsmp vid2 hvid2
            by_cases hv : vid2 = vid
            · subst hv
              rw [filter_pair_replace_self]
              rfl
            · rw [filter_pair_replace_ne uid vid2 uid vid e.2.1 e.2.2 t s
                (fun hc => hv hc.2)]
              exact h smp (List.mem_cons_of_mem e hsmp) vid2 hvid2
          rw [ih _ htail, hlen]

lemma seed_demo_user_again (t : Nat) (s : Db) (urow : UserRow)
    (hfind : s.users.find? (fun u => u.username == demoUsername) = some urow)
    (hmap : s.users.map demoUpdate = s.users)
    (hconf : ¬ demoUpdateConflict s.users) :
    _seed_demo_user t s = some (urow.id, s) := by
  have hany : (s.users.any (fun u => u.username == demoUsername || u.email == demoEmail))
      = true := by
    refine List.any_eq_true.mpr ⟨urow, List.mem_of_find?_eq_some hfind, ?_⟩
    have hp := List.find?_some hfind
    rw [hp]
    rfl
  unfold _seed_demo_user
  rw [if_pos hany, if_neg hconf]
  rw [hmap]
  show (match s.users.find? (fun u => u.username == demoUsername) with
    | none => none
    | some u => some (u.id, s)) = some (urow.id, s)
  rw [hfind]

lemma initialize_database_run (t : Nat) (s : Db) (r3 r4 r5 r6 : RunState)
    (h3 : stepUser t ⟨_seed_app_info t (_create_schema s), none, none, none⟩ = some r3)
    (h4 : stepCategories t r3 = some r4)
    (h5 : stepVideos t r4 = some r5)
    (h6 : stepWatchHistory t r5 = some r6) :
    initialize_database t s = some r6.db := by
  show Option.map (fun rs : RunState => rs.db)
    (Option.bind (Option.bind (Option.bind
      (stepUser t ⟨_seed_app_info t (_create_schema s), none, none, none⟩)
      (stepCategories t)) (stepVideos t)) (stepWatchHistory t)) = some r6.db
  rw [h3]
  rw [show Option.bind (some r3) (stepCategories t) = stepCategories t r3 from rfl, h4]
  rw [show Option.bind (some r4) (stepVideos t) = stepVideos t r4 from rfl, h5]
  rw [show Option.bind (some r5) (stepWatchHistory t) = stepWatchHistory t r5 from rfl, h6]
  rfl

end StreamingDb
namespace StreamingDb

lemma bind_some_eq {α β : Type} (a : α) (f : α → Option β) :
    Option.bind (some a) f = f a := rfl

lemma map_some_eq {α β : Type} (a : α) (f : α → β) :
    Option.map f (some a) = some (f a) := rfl

lemma map_none_eq {α β : Type} (f : α → β) :
    Option.map f (none : Option α) = none := rfl

lemma bind_none_eq {α β : Type} (f : α → Option β) :
    Option.bind (none : Option α) f = none := rfl

lemma stepSchema_eq (db : Db) (du : Option Nat) (ci vi : Option (List (String × Nat))) :
    stepSchema ⟨db, du, ci, vi⟩ = some ⟨_create_schema db, du, ci, vi⟩ := rfl

lemma stepAppInfo_eq (t : Nat) (db : Db) (du : Option Nat)
    (ci vi : Option (List (String × Nat))) :
    stepAppInfo t ⟨db, du, ci, vi⟩ = some ⟨_seed_app_info t db, du, ci, vi⟩ := rfl

lemma stepUser_eq (t : Nat) (db : Db) (du : Option Nat)
    (ci vi : Option (List (String × Nat))) :
    stepUser t ⟨db, du, ci, vi⟩
      = (_seed_demo_user t db).map (fun p => (⟨p.2, some p.1, ci, vi⟩ : RunState)) := rfl

lemma stepCategories_eq (t : Nat) (db : Db) (du : Option Nat)
    (ci vi : Option (List (String × Nat))) :
    stepCategories t ⟨db, du, ci, vi⟩
      = some ⟨(_seed_categories t db).2, du, some (_seed_categories t db).1, vi⟩ := rfl

lemma stepVideos_eq (t : Nat) (db : Db) (du : Option Nat) (m : List (String × Nat))
    (vi : Option (List (String × Nat))) :
    stepVideos t ⟨db, du, some m, vi⟩
      = (_seed_videos t m db).map (fun q => (⟨q.2, du, some m, some q.1⟩ : RunState)) := rfl

lemma stepWatchHistory_eq (t : Nat) (db : Db) (uid : Nat)
    (ci : Option (List (String × Nat))) (vm : List (String × Nat)) :
    stepWatchHistory t ⟨db, some uid, ci, some vm⟩
      = some ⟨_seed_watch_history t uid vm db, some uid, ci, some vm⟩ := rfl

end StreamingDb
open StreamingDb in
/-- C1: the schema+seed procedure is idempotent on row counts and column
sets: whenever a first `initialize_database` run commits successfully, a
second run on the committed store also succeeds and leaves every table with
the same row count and the same column list as after the first run. -/
theorem c1_schema_seed_idempotent (t1 t2 : Nat) (s s1 : Db)
    (hrun : initialize_database t1 s = some s1) :
    ∃ s2, initialize_database t2 s1 = some s2 ∧
      rowCounts s2 = rowCounts s1 ∧ s2.table_columns = s1.table_columns := by
  have hrun0 : Option.map (fun rs : RunState => rs.db)
      (Option.bind (Option.bind (Option.bind (Option.bind (Option.bind (Option.bind
        (some (⟨s, none, none, none⟩ : RunState)) stepSchema) (stepAppInfo t1))
        (stepUser t1)) (stepCategories t1)) (stepVideos t1)) (stepWatchHistory t1))
      = some s1 := hrun
  rw [bind_some_eq, stepSchema_eq, bind_some_eq, stepAppInfo_eq, bind_some_eq,
    stepUser_eq] at hrun0
  cases hu : _seed_demo_user t1 (_seed_app_info t1 (_create_schema s)) with
  | none =>
      rw [hu] at hrun0
      rw [map_none_eq, bind_none_eq, bind_none_eq, bind_none_eq, map_none_eq] at hrun0
      cases hrun0
  | some p =>
    obtain ⟨uid1, A2⟩ := p
    rw [hu] at hrun0
    rw [map_some_eq] at hrun0
    rw [show ((uid1, A2).2 : Db) = A2 from rfl,
        show ((uid1, A2).1 : Nat) = uid1 from rfl] at hrun0
    rw [bind_some_eq, stepCategories_eq, bind_some_eq, stepVideos_eq] at hrun0
    cases hv : _seed_videos t1 (_seed_categories t1 A2).1 (_seed_categories t1 A2).2 with
    | none =>
        rw [hv] at hrun0
        rw [map_none_eq, bind_none_eq, map_none_eq] at hrun0
        cases hrun0
    | some q =>
      obtain ⟨vm, A4⟩ := q
      rw [hv] at hrun0
      rw [map_some_eq] at hrun0
      rw [show ((vm, A4).2 : Db) = A4 from rfl,
          show ((vm, A4).1 : List (String × Nat)) = vm from rfl] at hrun0
      rw [bind_some_eq, stepWatchHistory_eq, map_some_eq] at hrun0
      have hs1 : _seed_watch_history t1 uid1 vm A4 = s1 := Option.some.inj hrun0
      obtain ⟨ai1, n1, hA1⟩ := seed_app_info_shape t1 appInfoEntries (_create_schema s)
      have hA1f : _seed_app_info t1 (_create_schema s)
          = { _create_schema s with app_info := ai1, next_app_info_id := n1 } := hA1
      obtain ⟨us2, nu2, hA2⟩ :=
        seed_demo_user_shape t1 (_seed_app_info t1 (_create_schema s)) uid1 A2 hu
      obtain ⟨cs3, nc3, hA3⟩ := seed_categories_shape t1 A2
      obtain ⟨hfold1, hvm⟩ :=
        seed_videos_post t1 (_seed_categories t1 A2).1 (_seed_categories t1 A2).2 vm A4 hv
      obtain ⟨vs4, vc4, nv4, hA4⟩ := seedVideosFold_shape t1 (_seed_categories t1 A2).1
        videosSeed (_seed_categories t1 A2).2 A4 hfold1
      obtain ⟨wh5, nw5, hA5⟩ := watch_fold_shape t1 uid1 vm watchSamples A4
      have hs1f : s1 = { A4 with watch_history := wh5, next_watch_history_id := nw5 } := by
        rw [← hs1]
        exact hA5
      have hf_tc : s1.table_columns = schemaTables s.table_columns := by
        rw [hs1f, hA4, hA3, hA2, hA1f]
        rfl
      have hf_idx : s1.indexes = schemaIndexes s.indexes := by
        rw [hs1f, hA4, hA3, hA2, hA1f]
        rfl
      have hf_ai : s1.app_info = ai1 := by
        rw [hs1f, hA4, hA3, hA2, hA1f]
      have hf_users : s1.users = us2 := by
        rw [hs1f, hA4, hA3, hA2]
      have hf_cats : s1.categories = cs3 := by
        rw [hs1f, hA4, hA3]
      have hf_videos : s1.videos = vs4 := by
        rw [hs1f, hA4]
      have hf_vc : s1.video_categories = vc4 := by
        rw [hs1f, hA4]
      have hF2 : ∀ kv ∈ appInfoEntries,
          ((s1.app_info.filter (fun r => r.key == kv.1)).length = 1) := by
        intro kv hkv
        obtain ⟨n, hfil, _⟩ := seed_app_info_filter_eq appInfoEntries t1 kv.1 kv.2
          (_create_schema s) hkv (by decide)
        have hfold_ai : (appInfoEntries.foldl
            (fun s kv => insertOrReplaceAppInfo kv.1 kv.2 t1 s)
            (_create_schema s)).app_info = s1.app_info := by
          rw [hA1, hf_ai]
        rw [hfold_ai] at hfil
        rw [hfil]
        rfl
      obtain ⟨⟨urow, hfindA2, huid⟩, hmapA2, hconfA2⟩ :=
        seed_demo_user_post t1 (_seed_app_info t1 (_create_schema s)) uid1 A2 hu
      have husers : A2.users = s1.users := by
        rw [hA2, hf_users]
      rw [husers] at hfindA2 hmapA2 hconfA2
      have hfoldcats : (categoriesSeed.foldl
          (fun s nd => insertOrIgnoreCategory nd.1 nd.2 t1 s) A2).categories
          = s1.categories := by
        have e1 : (categoriesSeed.foldl
            (fun s nd => insertOrIgnoreCategory nd.1 nd.2 t1 s) A2)
            = (_seed_categories t1 A2).2 := rfl
        rw [e1, hA3, hf_cats]
      have hF4 : ∀ nd ∈ categoriesSeed,
          s1.categories.any (fun c => c.name == nd.1) = true := by
        intro nd hnd
        rw [← hfoldcats]
        exact cat_fold_post categoriesSeed t1 A2 nd hnd
      have hcm : (_seed_categories t1 A2).1
          = s1.categories.map (fun c => (c.name, c.id)) := by
        have e1 : (_seed_categories t1 A2).1
            = (categoriesSeed.foldl
              (fun s nd => insertOrIgnoreCategory nd.1 nd.2 t1 s) A2).categories.map
              (fun c => (c.name, c.id)) := rfl
        rw [e1, hfoldcats]
      have hA4videos : A4.videos = s1.videos := by
        rw [hA4, hf_videos]
      have hA4vc : A4.video_categories = s1.video_categories := by
        rw [hA4, hf_vc]
      have hF5 := seedVideosFold_post t1 (_seed_categories t1 A2).1 videosSeed
        (_seed_categories t1 A2).2 A4 hfold1
      rw [hA4videos, hA4vc] at hF5
      have hvm2 : vm = s1.videos.map (fun r => (r.slug, r.id)) := by
        rw [hvm, hA4videos]
      have hF6 : ∀ smp ∈ watchSamples, ∀ vid, dictGet vm smp.1 = some vid →
          (s1.watch_history.filter
            (fun r => r.user_id == uid1 && r.video_id == vid)).length = 1 := by
        intro smp hsmp vid hvid
        have h := wh_fold_post t1 uid1 vm watchSamples A4 smp hsmp vid hvid
        have e1 : watchSamples.foldl (watchStep t1 uid1 vm) A4 = s1 := hs1
        rw [e1] at h
        exact h
      have htcfix : schemaTables s1.table_columns = s1.table_columns := by
        rw [hf_tc]
        exact schemaTables_idem s.table_columns
      have hidxfix : schemaIndexes s1.indexes = s1.indexes := by
        rw [hf_idx]
        exact schemaIndexes_idem s.indexes
      have hschema2 : _create_schema s1 = s1 := by
        unfold _create_schema
        rw [htcfix, hidxfix]
      obtain ⟨ai2, n2, hB1⟩ := seed_app_info_shape t2 appInfoEntries s1
      have hB1f : _seed_app_info t2 s1
          = { s1 with app_info := ai2, next_app_info_id := n2 } := hB1
      have hlen2 : ai2.length = s1.app_info.length := by
        have h := seed_app_info_length_stable t2 appInfoEntries s1 hF2
        rw [hB1] at h
        exact h
      have huser2 : _seed_demo_user t2
          ({ s1 with app_info := ai2, next_app_info_id := n2 } : Db)
          = some (urow.id, { s1 with app_info := ai2, next_app_info_id := n2 }) :=
        seed_demo_user_again t2 _ urow hfindA2 hmapA2 hconfA2
      have hcatnoop : categoriesSeed.foldl
          (fun s nd => insertOrIgnoreCategory nd.1 nd.2 t2 s)
          ({ s1 with app_info := ai2, next_app_info_id := n2 } : Db)
          = ({ s1 with app_info := ai2, next_app_info_id := n2 } : Db) :=
        cat_fold_noop categoriesSeed t2 _ (fun nd hnd => hF4 nd hnd)
      have hcat2 : _seed_categories t2
          ({ s1 with app_info := ai2, next_app_info_id := n2 } : Db)
          = (s1.categories.map (fun c => (c.name, c.id)),
             ({ s1 with app_info := ai2, next_app_info_id := n2 } : Db)) := by
        have e1 : _seed_categories t2
            ({ s1 with app_info := ai2, next_app_info_id := n2 } : Db)
            = ((categoriesSeed.foldl (fun s nd => insertOrIgnoreCategory nd.1 nd.2 t2 s)
                ({ s1 with app_info := ai2, next_app_info_id := n2 } : Db)).categories.map
                  (fun c => (c.name, c.id)),
               categoriesSeed.foldl (fun s nd => insertOrIgnoreCategory nd.1 nd.2 t2 s)
                ({ s1 with app_info := ai2, next_app_info_id := n2 } : Db)) := rfl
        rw [e1, hcatnoop]
      have hvidnoop : videosSeed.foldlM
          (seedOneVideo t2 (s1.categories.map (fun c => (c.name, c.id))))
          ({ s1 with app_info := ai2, next_app_info_id := n2 } : Db)
          = some ({ s1 with app_info := ai2, next_app_info_id := n2 } : Db) := by
        apply videosFold_noop
        intro v hv2
        obtain ⟨row, hfind, hpairs⟩ := hF5 v hv2
        refine ⟨row, hfind, ?_⟩
        intro cn hcn cid hcid
        refine hpairs cn hcn cid ?_
        rw [hcm]
        exact hcid
      have hvid2 : _seed_videos t2 (s1.categories.map (fun c => (c.name, c.id)))
          ({ s1 with app_info := ai2, next_app_info_id := n2 } : Db)
          = some (s1.videos.map (fun r => (r.slug, r.id)),
                  ({ s1 with app_info := ai2, next_app_info_id := n2 } : Db)) := by
        have e1 : _seed_videos t2 (s1.categories.map (fun c => (c.name, c.id)))
            ({ s1 with app_info := ai2, next_app_info_id := n2 } : Db)
            = (videosSeed.foldlM
                (seedOneVideo t2 (s1.categories.map (fun c => (c.name, c.id))))
                ({ s1 with app_info := ai2, next_app_info_id := n2 } : Db)).map
              (fun s' => (s'.videos.map (fun r => (r.slug, r.id)), s')) := rfl
        rw [e1, hvidnoop]
        rfl
      obtain ⟨wh2, nw2, hB5⟩ := watch_fold_shape t2 urow.id
        (s1.videos.map (fun r => (r.slug, r.id))) watchSamples
        ({ s1 with app_info := ai2, next_app_info_id := n2 } : Db)
      have hwh3 : _seed_watch_history t2 urow.id (s1.videos.map (fun r => (r.slug, r.id)))
          ({ s1 with app_info := ai2, next_app_info_id := n2 } : Db)
          = { s1 with
              app_info := ai2, next_app_info_id := n2,
              watch_history := wh2, next_watch_history_id := nw2 } := by
        have e1 : _seed_watch_history t2 urow.id
            (s1.videos.map (fun r => (r.slug, r.id)))
            ({ s1 with app_info := ai2, next_app_info_id := n2 } : Db)
            = watchSamples.foldl (watchStep t2 urow.id
                (s1.videos.map (fun r => (r.slug, r.id))))
                ({ s1 with app_info := ai2, next_app_info_id := n2 } : Db) := rfl
        rw [e1, hB5]
      have hwh2len : wh2.length = s1.watch_history.length := by
        have hstab := wh_fold_length_stable t2 uid1 vm watchSamples
          ({ s1 with app_info := ai2, next_app_info_id := n2 } : Db)
          (fun smp hsmp vid hvid => hF6 smp hsmp vid hvid)
        rw [huid] at hstab
        rw [hvm2] at hstab
        rw [hB5] at hstab
        exact hstab
      refine ⟨{ s1 with
          app_info := ai2, next_app_info_id := n2,
          watch_history := wh2, next_watch_history_id := nw2 }, ?_, ?_, ?_⟩
      · have h3 : stepUser t2 ⟨_seed_app_info t2 (_create_schema s1), none, none, none⟩
            = some ⟨{ s1 with app_info := ai2, next_app_info_id := n2 },
                some urow.id, none, none⟩ := by
          rw [stepUser_eq, hschema2, hB1f, huser2]
          rfl
        have h4 : stepCategories t2 (⟨{ s1 with app_info := ai2, next_app_info_id := n2 },
              some urow.id, none, none⟩ : RunState)
            = some ⟨{ s1 with app_info := ai2, next_app_info_id := n2 }, some urow.id,
                some (s1.categories.map (fun c => (c.name, c.id))), none⟩ := by
          rw [stepCategories_eq, hcat2]
        have h5 : stepVideos t2 (⟨{ s1 with app_info := ai2, next_app_info_id := n2 },
              some urow.id, some (s1.categories.map (fun c => (c.name, c.id))),
              none⟩ : RunState)
            = some ⟨{ s1 with app_info := ai2, next_app_info_id := n2 }, some urow.id,
                some (s1.categories.map (fun c => (c.name, c.id))),
                some (s1.videos.map (fun r => (r.slug, r.id)))⟩ := by
          rw [stepVideos_eq, hvid2]
          rfl
        have h6 : stepWatchHistory t2 (⟨{ s1 with app_info := ai2, next_app_info_id := n2 },
              some urow.id, some (s1.categories.map (fun c => (c.name, c.id))),
              some (s1.videos.map (fun r => (r.slug, r.id)))⟩ : RunState)
            = some ⟨{ s1 with
                app_info := ai2, next_app_info_id := n2,
                watch_history := wh2, next_watch_history_id := nw2 },
                some urow.id, some (s1.categories.map (fun c => (c.name, c.id))),
                some (s1.videos.map (fun r => (r.slug, r.id)))⟩ := by
          rw [stepWatchHistory_eq, hwh3]
        exact initialize_database_run t2 s1 _ _ _ _ h3 h4 h5 h6
      · show (ai2.length, s1.users.length, s1.categories.length, s1.videos.length,
          s1.video_categories.length, wh2.length)
          = (s1.app_info.length, s1.users.length, s1.categories.length, s1.videos.length,
             s1.video_categories.length, s1.watch_history.length)
        rw [hlen2, hwh2len]
      · rfl
/-- Witness for C1: the cold-start store.  The first run at time 0 commits;
applying the theorem to the committed store shows the second run at time 1
succeeds with identical row counts and column sets. -/
theorem c1_schema_seed_idempotent_witness :
    ∃ s2, initialize_database 1 ((initialize_database 0 emptyDb).getD emptyDb) = some s2 ∧
      rowCounts s2 = rowCounts ((initialize_database 0 emptyDb).getD emptyDb) ∧
      s2.table_columns = ((initialize_database 0 emptyDb).getD emptyDb).table_columns :=
  c1_schema_seed_idempotent 0 1 emptyDb ((initialize_database 0 emptyDb).getD emptyDb)
    (by decide)
